import Mathlib

/-!
Verification of the constrained hierarchical classification pipeline of the
calabi-ml-server repository (`src/ontology/service.py`).

The pipeline is embedded shallowly: the two oracle round trips (root
selection and leaf classification) are external effects, so `classify` is
modelled as a pure function of the request together with the outcome of each
oracle call (either a parsed response or a transport/parse failure carrying a
message, mirroring the Python `try/except` blocks).  Python float confidences
are modelled as rationals: the pipeline only ever compares and sorts them.
Python string truthiness (`or` chains, `if s:` guards) is modelled explicitly
by `pyStr`/`pyOr`.
-/

namespace CalabiML

/-- Python truthiness of an optional string: `None` and `""` are falsy. -/
def pyStr : Option String → Option String
  | some s => if s = "" then none else some s
  | none => none

/-- Python `a or b` on optional strings: `a` when truthy, otherwise `b` as is. -/
def pyOr (a b : Option String) : Option String :=
  match pyStr a with
  | some s => some s
  | none => b

/-- Association-list find, first match wins (helper for dict modelling). -/
def assocFind {α : Type} (k : String) : List (String × α) → Option α
  | [] => none
  | (k', v) :: rest => if k' = k then some v else assocFind k rest

/-- Python dict lookup for a dict built by inserting the pairs of `m` in
order: the LAST binding of a key wins. -/
def dictGet {α : Type} (m : List (String × α)) (k : String) : Option α :=
  assocFind k m.reverse

/-- Python `dict.get(k, d)`. -/
def dictGetD {α : Type} (m : List (String × α)) (k : String) (d : α) : α :=
  (dictGet m k).getD d

/-! ### Data model (src/ontology/dtos.py) -/

/-- A taxonomy node of the snapshot (dtos.py `SnapshotOClass`). -/
structure SnapshotOClass where
  id : String
  labelKo : Option String := none
  labelEn : Option String := none
  facet : Option String := none
  kind : Option String := none
  isRoot : Option Bool := none
  description : Option String := none
  seedVersion : Option String := none
deriving DecidableEq, Repr

/-- A subclass edge (dtos.py `SnapshotEdge`): parentId → childId. -/
structure SnapshotEdge where
  childId : String
  parentId : String
deriving DecidableEq, Repr

/-- The taxonomy snapshot (dtos.py `Snapshot`). -/
structure Snapshot where
  oClasses : List SnapshotOClass := []
  subclassEdges : List SnapshotEdge := []
  seedVersion : Option String := none
deriving DecidableEq, Repr

/-- A concept mention to classify (dtos.py `ConceptSample`). -/
structure ConceptSample where
  conceptKey : String
  conceptType : String
  conceptName : String
  sourceText : Option String := none
  normalizedTextEn : Option String := none
  surface : Option String := none
  occurrences : Option Nat := none
  examples : Option (List String) := none
deriving DecidableEq, Repr

/-- A final concept classification record (dtos.py `Classification`). -/
structure Classification where
  conceptKey : String
  conceptType : String
  conceptName : String
  oClassId : String
  confidence : ℚ
  rationale : Option String := none
deriving DecidableEq, Repr

/-- A final event-activity record (dtos.py `EventActivityClassification`). -/
structure EventActivityClassification where
  eventId : Option String := none
  oClassId : String
  confidence : ℚ
  rationale : Option String := none
deriving DecidableEq, Repr

/-- Classification mode (dtos.py `ClassifyRequest.mode`). -/
inductive Mode where
  | existing_only
  | allow_new_leaf
deriving DecidableEq, Repr

/-- Request scope (dtos.py `ClassifyRequest.scope`). -/
inductive Scope where
  | concept
  | event
  | both
deriving DecidableEq, Repr

/-- Python `payload.scope in ("concept", "both")`. -/
def Scope.includesConcept : Scope → Bool
  | .concept => true
  | .both => true
  | .event => false

/-- Python `payload.scope in ("event", "both")`. -/
def Scope.includesEvent : Scope → Bool
  | .event => true
  | .both => true
  | .concept => false

/-- The classify request (dtos.py `ClassifyRequest`). -/
structure ClassifyRequest where
  concepts : List ConceptSample := []
  snapshot : Snapshot
  mode : Mode := .existing_only
  scope : Scope := .both
  eventId : Option String := none
  eventTitle : Option String := none
  eventNormalizedTextEn : Option String := none
deriving DecidableEq, Repr

/-- Diagnostic record of a dropped classification (the dict literal built at
service.py lines 293-300 and 372-379). -/
structure DroppedClassification where
  conceptKey : String
  conceptType : String
  conceptName : String
  oClassId : String
deriving DecidableEq, Repr

/-- Diagnostic record of a dropped event activity (service.py lines 329-334
and 396-402). -/
structure DroppedEvent where
  eventId : Option String
  oClassId : String
deriving DecidableEq, Repr

/-- A structured warning/error entry.  The Python code builds these as ad hoc
dicts; each constructor corresponds to one dict shape appearing in
service.py.  `oracleRaw` stands for an opaque entry supplied by the oracle
itself (e.g. `root_selection.errors` items or parsed stage-2 errors). -/
inductive Note where
  | plain (stage message : String)
  | conceptNote (stage message conceptKey : String)
  | rootNote (stage message rootId : String)
  | missingNote (stage message : String) (missingCount : Nat) (missing : List String)
  | droppedCls (stage message : String) (droppedCount : Nat)
      (dropped : List DroppedClassification)
  | droppedEvt (stage message : String) (droppedCount : Nat)
      (dropped : List DroppedEvent)
  | countNote (stage message : String) (count : Nat)
  | oracleRaw (payload : String)
deriving DecidableEq, Repr

/-- The classify response (dtos.py `ClassifyResponse`). -/
structure ClassifyResponse where
  ok : Bool := true
  classifications : List Classification := []
  eventActivities : List EventActivityClassification := []
  oClassesToAdd : List SnapshotOClass := []
  subclassEdgesToAdd : List SnapshotEdge := []
  errors : List Note := []
  warnings : List Note := []
deriving DecidableEq, Repr

/-- A root candidate returned by the stage-1 oracle (service.py
`RootCandidate`). -/
structure RootCandidate where
  oClassId : String
  confidence : ℚ
  rationale : Option String := none
deriving DecidableEq, Repr

/-- Stage-1 per-concept root list (service.py `RootSelection`). -/
structure RootSelection where
  conceptKey : String
  roots : List RootCandidate := []
deriving DecidableEq, Repr

/-- Stage-1 oracle response (service.py `RootSelectionResponse`). -/
structure RootSelectionResponse where
  conceptRoots : List RootSelection := []
  eventRoots : List RootCandidate := []
  errors : List Note := []
deriving DecidableEq, Repr

/-! ### Root selection rule (service.py `_select_roots`, lines 441-451) -/

/-- Descending-confidence comparison used by the sort at service.py line 448.
Python `sorted(..., reverse=True)` is a stable descending sort, which the
Mathlib insertion sort reproduces for this non-strict relation. -/
def confGE (a b : RootCandidate) : Prop := b.confidence ≤ a.confidence

instance : DecidableRel confGE :=
  fun a b => inferInstanceAs (Decidable (b.confidence ≤ a.confidence))

instance : IsTotal RootCandidate confGE :=
  ⟨fun a b => le_total b.confidence a.confidence⟩

instance : IsTrans RootCandidate confGE :=
  ⟨fun _ _ _ hab hbc => le_trans hbc hab⟩

/-- service.py `_select_roots`: drop candidates outside the allowed root-id
set; empty if none remain; keep those with confidence ≥ 0.4, falling back to
the whole valid set when the threshold empties it; sort by descending
confidence; truncate to 5. -/
def selectRoots (candidates : List RootCandidate) (allowedIds : List String) :
    List RootCandidate :=
  let valid := candidates.filter (fun c => allowedIds.contains c.oClassId)
  if valid = [] then []
  else
    let selected := valid.filter (fun c => mkRat 4 10 ≤ c.confidence)
    (List.insertionSort confGE (if selected = [] then valid else selected)).take 5

/-! ### Subtree expansion (service.py `collect_leaves`, lines 464-480) -/

/-- The children map built at service.py lines 464-466, as a function: for a
parent id, its child ids in edge-declaration order. -/
def childrenOf (edges : List SnapshotEdge) (p : String) : List String :=
  (edges.filter (fun e => e.parentId = p)).map (fun e => e.childId)

/-- One-step child relation derived from the edge list. -/
def childStep (edges : List SnapshotEdge) (a b : String) : Prop :=
  b ∈ childrenOf edges a

/-- Reachability from a node along subclass (parent → child) edges. -/
def Reaches (edges : List SnapshotEdge) : String → String → Prop :=
  Relation.ReflTransGen (childStep edges)

/-- The DFS worklist loop of collect_leaves (service.py lines 470-478), with
explicit fuel standing in for the Python while loop; dfsFuel below is proved
sufficient for the loop to run to completion.  The Python stack is a list
popped from the right, so pushed children are reversed here (the visited set
is order-insensitive anyway). -/
def dfsLoop (edges : List SnapshotEdge) :
    Nat → List String → List String → List String
  | _, visited, [] => visited
  | 0, visited, _ :: _ => visited
  | fuel + 1, visited, node :: rest =>
    if node ∈ visited then dfsLoop edges fuel visited rest
    else dfsLoop edges fuel (node :: visited) ((childrenOf edges node).reverse ++ rest)

/-- Fuel sufficient for the DFS loop: proved adequate in dfsLoop_runs_out. -/
def dfsFuel (edges : List SnapshotEdge) : Nat :=
  (edges.length + 1) * (edges.length + 2)

/-- service.py collect_leaves (lines 469-480): DFS from rootId over child
edges with a visited set, then keep the visited nodes that have no
children. -/
def collect_leaves (edges : List SnapshotEdge) (rootId : String) : List String :=
  (dfsLoop edges (dfsFuel edges) [] [rootId]).filter
    (fun n => (childrenOf edges n).isEmpty)

/-! ### Stage-2 payload construction (service.py `_build_stage2_payload`) -/

/-- The bounded class view sent to the oracle (service.py _o_class_view). -/
structure OClassView where
  id : String
  labelKo : Option String
  labelEn : Option String
  facet : Option String
  description : Option String
deriving DecidableEq, Repr

/-- service.py _o_class_view (lines 432-439). -/
def oClassView (c : SnapshotOClass) : OClassView :=
  { id := c.id, labelKo := c.labelKo, labelEn := c.labelEn,
    facet := c.facet, description := c.description }

/-- service.py _infer_event_title (lines 419-423): the sourceText of the
first concept that has a truthy one. -/
def inferEventTitle (payload : ClassifyRequest) : Option String :=
  match payload.concepts.find? (fun c => (pyStr c.sourceText).isSome) with
  | some c => c.sourceText
  | none => none

/-- service.py _get_root_classes (lines 425-430): classes flagged isRoot,
else structural roots (classes with no incoming subclass edge). -/
def getRootClasses (payload : ClassifyRequest) : List SnapshotOClass :=
  let roots := payload.snapshot.oClasses.filter (fun c => c.isRoot.getD false)
  if roots.isEmpty then
    let childIds := payload.snapshot.subclassEdges.map (fun e => e.childId)
    payload.snapshot.oClasses.filter (fun c => !(childIds.contains c.id))
  else roots

/-- A stage-2 concept item (the dict built at service.py lines 495-500). -/
structure Stage2Concept where
  sample : ConceptSample
  rootCandidates : List String
deriving DecidableEq, Repr

/-- The stage-2 event payload (service.py lines 549-554). -/
structure Stage2Event where
  title : Option String
  normalizedTextEn : Option String
  rootCandidates : List String
deriving DecidableEq, Repr

/-- The stage-2 query payload (service.py lines 556-562). -/
structure Stage2Payload where
  mode : Mode
  scope : Scope
  concepts : List Stage2Concept
  event : Option Stage2Event
  rootSubtrees : List (String × List OClassView)
deriving DecidableEq, Repr

/-- service.py line 467: the class index dict, keyed by class id. -/
def classIndexGet (classes : List SnapshotOClass) (i : String) :
    Option SnapshotOClass :=
  dictGet (classes.map (fun c => (c.id, c))) i

/-- service.py lines 541-546: the leaf views for one root — the first 200
leaf ids, skipping ids absent from the class index. -/
def leafEntries (classes : List SnapshotOClass) (edges : List SnapshotEdge)
    (rootId : String) : List OClassView :=
  ((collect_leaves edges rootId).take 200).filterMap
    (fun leafId => (classIndexGet classes leafId).map oClassView)

/-- service.py lines 527-529: the union of root ids implicated by stage 1 (a
Python set; modelled as a deduplicated list, every downstream use is
order-insensitive). -/
def rootsForSubtrees (eventRoots : List RootCandidate)
    (conceptRootMap : List (String × List RootCandidate))
    (conceptItems : List Stage2Concept) : List String :=
  (eventRoots.map (fun r => r.oClassId)
    ++ ((conceptRootMap.map Prod.snd).flatten).map (fun r => r.oClassId)
    ++ (conceptItems.map (fun i => i.rootCandidates)).flatten).dedup

/-- service.py lines 482-500: the stage-2 concept items (concepts whose
stage-1 selection is non-empty, each carrying its selected root ids). -/
def conceptItemsOf (payload : ClassifyRequest)
    (conceptRootMap : List (String × List RootCandidate))
    (includeConcept : Bool) : List Stage2Concept :=
  if includeConcept then
    (payload.concepts.filter
      (fun c => dictGetD conceptRootMap c.conceptKey [] ≠ [])).map
      (fun c => { sample := c,
                  rootCandidates := (dictGetD conceptRootMap c.conceptKey []).map
                    (fun r => r.oClassId) })
  else []

/-- service.py lines 486-493: warnings for concepts with an empty stage-1
selection (excluded from the stage-2 query). -/
def conceptNotesOf (payload : ClassifyRequest)
    (conceptRootMap : List (String × List RootCandidate))
    (includeConcept : Bool) : List Note :=
  if includeConcept then
    (payload.concepts.filter
      (fun c => dictGetD conceptRootMap c.conceptKey [] = [])).map
      (fun c => Note.conceptNote "validation" "no roots selected for concept"
        c.conceptKey)
  else []

/-- service.py lines 502-524: the three-way warning when scope includes the
event but its stage-1 selection is empty. -/
def eventSkipNotesOf (payload : ClassifyRequest) (eventRoots : List RootCandidate)
    (activityRoots : List SnapshotOClass) (includeEvent : Bool) : List Note :=
  if includeEvent ∧ eventRoots = [] then
    if (pyStr (pyOr payload.eventTitle payload.eventNormalizedTextEn)).isNone then
      [Note.plain "validation" "event context missing; event classification skipped"]
    else if activityRoots.isEmpty then
      [Note.plain "validation"
        "no Activity roots in snapshot; event classification skipped"]
    else
      [Note.plain "validation"
        "event root selection empty; event classification skipped"]
  else []

/-- service.py lines 530-540: warnings for implicated roots whose traversal
yields no leaf ids at all. -/
def subtreeNotesOf (edges : List SnapshotEdge) (rootsFor : List String) :
    List Note :=
  (rootsFor.filter (fun r => collect_leaves edges r = [])).map
    (fun r => Note.rootNote "validation" "no leaf candidates for root" r)

/-- service.py lines 530-547: the rootSubtrees dict — one entry per
implicated root whose traversal yields at least one leaf id. -/
def rootSubtreesOf (classes : List SnapshotOClass) (edges : List SnapshotEdge)
    (rootsFor : List String) : List (String × List OClassView) :=
  (rootsFor.filter (fun r => collect_leaves edges r ≠ [])).map
    (fun r => (r, leafEntries classes edges r))

/-- service.py lines 549-554: the stage-2 event payload. -/
def eventPayloadOf (payload : ClassifyRequest) (eventRoots : List RootCandidate)
    (includeEvent : Bool) : Option Stage2Event :=
  if includeEvent ∧ eventRoots ≠ [] then
    some { title := pyOr payload.eventTitle (inferEventTitle payload),
           normalizedTextEn := payload.eventNormalizedTextEn,
           rootCandidates := eventRoots.map (fun r => r.oClassId) }
  else none

/-- service.py _build_stage2_payload (lines 453-562).  Returns the payload
together with the warnings the Python code appends to the mutable
root_errors argument, in order. -/
def buildStage2Payload (payload : ClassifyRequest)
    (conceptRootMap : List (String × List RootCandidate))
    (eventRoots : List RootCandidate)
    (activityRoots : List SnapshotOClass)
    (includeConcept includeEvent : Bool) :
    Stage2Payload × List Note :=
  let edges := payload.snapshot.subclassEdges
  let classes := payload.snapshot.oClasses
  let conceptItems := conceptItemsOf payload conceptRootMap includeConcept
  let rootsFor := rootsForSubtrees eventRoots conceptRootMap conceptItems
  ({ mode := payload.mode, scope := payload.scope, concepts := conceptItems,
     event := eventPayloadOf payload eventRoots includeEvent,
     rootSubtrees := rootSubtreesOf classes edges rootsFor },
   conceptNotesOf payload conceptRootMap includeConcept
     ++ eventSkipNotesOf payload eventRoots activityRoots includeEvent
     ++ subtreeNotesOf edges rootsFor)

/-! ### Post-stage-2 validation (service.py lines 237-417) -/

/-- service.py lines 244-248: request eventId, else eventTitle, else the
inferred title, under Python truthiness. -/
def resolvedEventIdOf (payload : ClassifyRequest) : Option String :=
  pyOr payload.eventId (pyOr payload.eventTitle (inferEventTitle payload))

/-- service.py lines 249-263: scope strip, identity back-fill (the resolved
event id overwrites the eventId of every record), or drop-all with a warning
when no identity resolves. -/
def backfillEvents (includeEvent : Bool) (resolved : Option String)
    (eas : List EventActivityClassification) :
    List EventActivityClassification × List Note :=
  if !includeEvent then ([], [])
  else if (pyStr resolved).isNone then
    ([], if eas ≠ [] then
      [Note.plain "validation" "event context missing; ignoring eventActivities"]
    else [])
  else (eas.map (fun item => { item with eventId := resolved }), [])

/-- service.py lines 270-273: the ids of a root's leaf views. -/
def rootLeafIds (s2 : Stage2Payload) (rootId : String) : List String :=
  match dictGet s2.rootSubtrees rootId with
  | some entries => entries.map (fun v => v.id)
  | none => []

/-- service.py lines 274-280: conceptKey → union of candidate leaf ids over
that concept's selected roots (the Python set union is modelled as list
concatenation; only membership is ever used). -/
def conceptLeafMapOf (s2 : Stage2Payload) : List (String × List String) :=
  s2.concepts.map
    (fun c => (c.sample.conceptKey, (c.rootCandidates.map (rootLeafIds s2)).flatten))

/-- The candidate leaf set of one concept key (empty when the key is absent
from the map). -/
def conceptCandidateLeaves (s2 : Stage2Payload) (key : String) : List String :=
  dictGetD (conceptLeafMapOf s2) key []

/-- service.py lines 282-285: the event's candidate leaf ids. -/
def eventLeafIdsOf (includeEvent : Bool) (s2 : Stage2Payload) : List String :=
  if includeEvent then
    match s2.event with
    | some ev => (ev.rootCandidates.map (rootLeafIds s2)).flatten
    | none => []
  else []

/-- Keep condition of the leaf-only concept filter (service.py lines
291-292): the concept has a non-empty candidate set containing the class. -/
def conceptKeep (clm : List (String × List String)) (item : Classification) : Bool :=
  match dictGet clm item.conceptKey with
  | some allowed => allowed.contains item.oClassId
  | none => false

/-- service.py lines 287-312: the leaf-only filter over classifications. -/
def leafFilterCls (clm : List (String × List String)) (cls : List Classification) :
    List Classification × List Note :=
  if cls = [] then (cls, [])
  else
    let kept := cls.filter (conceptKeep clm)
    let dropped := (cls.filter (fun i => !(conceptKeep clm i))).map
      (fun i => DroppedClassification.mk i.conceptKey i.conceptType i.conceptName i.oClassId)
    if dropped = [] then (cls, [])
    else (kept, [Note.droppedCls "validation"
      "leaf-only: stripped classifications not in candidate leaves"
      dropped.length (dropped.take 50)])

/-- Keep condition of the leaf-only event filter (service.py line 326). -/
def evtKeep (eventLeafIds : List String) (item : EventActivityClassification) : Bool :=
  !eventLeafIds.isEmpty && eventLeafIds.contains item.oClassId

/-- service.py lines 322-344: the leaf-only filter over event activities. -/
def leafFilterEvt (ids : List String) (eas : List EventActivityClassification) :
    List EventActivityClassification × List Note :=
  if eas = [] then (eas, [])
  else
    let kept := eas.filter (evtKeep ids)
    let dropped := (eas.filter (fun i => !(evtKeep ids i))).map
      (fun i => DroppedEvent.mk i.eventId i.oClassId)
    if dropped = [] then (eas, [])
    else (kept, [Note.droppedEvt "validation"
      "leaf-only: stripped event activities not in candidate leaves"
      dropped.length (dropped.take 50)])

/-- service.py line 364: ids present in the snapshot (Python skips falsy,
i.e. empty, ids). -/
def snapshotAllowedIds (snapshot : Snapshot) : List String :=
  (snapshot.oClasses.filter (fun c => c.id ≠ "")).map (fun c => c.id)

/-- service.py lines 365-389: the existing_only filter over classifications. -/
def modeFilterCls (allowedIds : List String) (cls : List Classification) :
    List Classification × List Note :=
  if cls = [] then (cls, [])
  else
    let kept := cls.filter (fun i => allowedIds.contains i.oClassId)
    let dropped := (cls.filter (fun i => !(allowedIds.contains i.oClassId))).map
      (fun i => DroppedClassification.mk i.conceptKey i.conceptType i.conceptName i.oClassId)
    if dropped = [] then (cls, [])
    else (kept, [Note.droppedCls "validation"
      "existing_only mode: stripped classifications not in snapshot"
      dropped.length (dropped.take 50)])

/-- service.py lines 390-412: the existing_only filter over event
activities. -/
def modeFilterEvt (allowedIds : List String) (eas : List EventActivityClassification) :
    List EventActivityClassification × List Note :=
  if eas = [] then (eas, [])
  else
    let kept := eas.filter (fun i => allowedIds.contains i.oClassId)
    let dropped := (eas.filter (fun i => !(allowedIds.contains i.oClassId))).map
      (fun i => DroppedEvent.mk i.eventId i.oClassId)
    if dropped = [] then (eas, [])
    else (kept, [Note.droppedEvt "validation"
      "existing_only mode: stripped event activities not in snapshot"
      dropped.length (dropped.take 50)])

/-- service.py lines 237-417: everything that happens to the parsed stage-2
oracle response.  rootWarnings is the accumulated root_warnings list. -/
def validateStage2 (payload : ClassifyRequest) (includeConcept includeEvent : Bool)
    (rootWarnings : List Note) (s2 : Stage2Payload) (parsed : ClassifyResponse) :
    ClassifyResponse :=
  -- lines 237-242
  let warnings0 := parsed.warnings ++ rootWarnings
  -- lines 244-263
  let eaPair := backfillEvents includeEvent (resolvedEventIdOf payload) parsed.eventActivities
  -- lines 265-266
  let cls0 := if includeConcept then parsed.classifications else []
  -- lines 268-285
  let clm := conceptLeafMapOf s2
  let evtIds := eventLeafIdsOf includeEvent s2
  -- lines 287-312
  let clsPair := leafFilterCls clm cls0
  -- lines 313-320
  let noClsNotes : List Note :=
    if includeConcept ∧ s2.concepts ≠ [] ∧ clsPair.1 = [] then
      [Note.countNote "classification"
        "no concept classifications returned; left unclassified" s2.concepts.length]
    else []
  -- lines 322-344
  let evtPair := leafFilterEvt evtIds eaPair.1
  -- lines 345-351
  let noEvtNotes : List Note :=
    if includeEvent ∧ s2.event.isSome ∧ evtPair.1 = [] then
      [Note.plain "classification" "no event activities returned; left unclassified"]
    else []
  -- lines 353-362
  let stripNotes : List Note :=
    if payload.mode = Mode.existing_only
        ∧ (parsed.oClassesToAdd ≠ [] ∨ parsed.subclassEdgesToAdd ≠ []) then
      [Note.plain "validation" "existing_only mode: stripped class/edge additions"]
    else []
  let adds := if payload.mode = Mode.existing_only then [] else parsed.oClassesToAdd
  let edgeAdds := if payload.mode = Mode.existing_only then [] else parsed.subclassEdgesToAdd
  -- lines 364-412
  let allowedIds := snapshotAllowedIds payload.snapshot
  let modeClsPair :=
    if payload.mode = Mode.existing_only then modeFilterCls allowedIds clsPair.1
    else (clsPair.1, [])
  let modeEvtPair :=
    if payload.mode = Mode.existing_only then modeFilterEvt allowedIds evtPair.1
    else (evtPair.1, [])
  -- lines 414-417
  { ok := if parsed.errors ≠ [] then false else parsed.ok,
    classifications := modeClsPair.1,
    eventActivities := modeEvtPair.1,
    oClassesToAdd := adds,
    subclassEdgesToAdd := edgeAdds,
    errors := parsed.errors,
    warnings := warnings0 ++ eaPair.2 ++ clsPair.2 ++ noClsNotes ++ evtPair.2
      ++ noEvtNotes ++ stripNotes ++ modeClsPair.2 ++ modeEvtPair.2 }

/-! ### The classify pipeline (service.py OntologyService.classify) -/

/-- service.py lines 120-124: Entity-facet root classes offered for
concepts. -/
def conceptRootsOf (roots : List SnapshotOClass) (includeConcept : Bool) :
    List SnapshotOClass :=
  if includeConcept then roots.filter (fun c => c.facet = some "Entity") else []

/-- service.py lines 125-129: Activity-facet root classes offered for the
event. -/
def activityRootsOf (roots : List SnapshotOClass) (includeEvent : Bool) :
    List SnapshotOClass :=
  if includeEvent then roots.filter (fun c => c.facet = some "Activity") else []

/-- service.py lines 171-176: per-concept validated root selection (a dict
keyed by conceptKey; the last binding of a key wins on lookup). -/
def conceptRootMapOf (rootSelection : RootSelectionResponse)
    (conceptRootIds : List String) (includeConcept : Bool) :
    List (String × List RootCandidate) :=
  if includeConcept then
    rootSelection.conceptRoots.map
      (fun entry => (entry.conceptKey, selectRoots entry.roots conceptRootIds))
  else []

/-- service.py lines 177-181: validated event root selection. -/
def eventRootsOf (rootSelection : RootSelectionResponse)
    (activityRootIds : List String) (includeEvent : Bool) : List RootCandidate :=
  if includeEvent then selectRoots rootSelection.eventRoots activityRootIds else []

/-- service.py lines 183-197: warning for concepts absent from the oracle's
stage-1 answer. -/
def missingConceptNotes (payload : ClassifyRequest)
    (conceptRootMap : List (String × List RootCandidate)) (includeConcept : Bool) :
    List Note :=
  if includeConcept then
    let missing := (payload.concepts.filter
      (fun c => (dictGet conceptRootMap c.conceptKey).isNone)).map
      (fun c => c.conceptKey)
    if missing = [] then []
    else [Note.missingNote "validation" "root selection missing for some concepts"
      missing.length (missing.take 50)]
  else []

/-- service.py lines 118-208 bundled: the validated stage-1 state — the
stage-2 payload together with all warnings accumulated so far
(root_selection.errors followed by the validation notes, mirroring the
mutable root_warnings list). -/
def classifyPrep (payload : ClassifyRequest)
    (rootSelection : RootSelectionResponse) : Stage2Payload × List Note :=
  let roots := getRootClasses payload
  let includeConcept := payload.scope.includesConcept
  let includeEvent := payload.scope.includesEvent
  let conceptRoots := conceptRootsOf roots includeConcept
  let activityRoots := activityRootsOf roots includeEvent
  let conceptRootMap :=
    conceptRootMapOf rootSelection (conceptRoots.map (fun c => c.id)) includeConcept
  let eventRoots :=
    eventRootsOf rootSelection (activityRoots.map (fun c => c.id)) includeEvent
  let bp := buildStage2Payload payload conceptRootMap eventRoots activityRoots
    includeConcept includeEvent
  (bp.1, rootSelection.errors
    ++ missingConceptNotes payload conceptRootMap includeConcept ++ bp.2)

/-- The outcome of one oracle round trip: a parsed response, or an exception
carrying a message (the try/except blocks around _call_openai_sync). -/
inductive Outcome (α : Type) where
  | ok (val : α)
  | failure (message : String)
deriving DecidableEq, Repr

/-- OntologyService.classify (service.py lines 100-417), with the two oracle
round trips supplied as outcomes; enabled models _enabled().  The prompt
strings assembled for the oracle are part of the external call and carry no
pipeline logic. -/
def classify (payload : ClassifyRequest) (enabled : Bool)
    (rootOutcome : Outcome RootSelectionResponse)
    (stage2Outcome : Outcome ClassifyResponse) : ClassifyResponse :=
  if !enabled then
    { ok := false,
      errors := [Note.plain "disabled" "openrouter_key_missing"] }
  else if (getRootClasses payload).isEmpty then
    { ok := false,
      errors := [Note.plain "validation" "no root oclasses available in snapshot"] }
  else
    match rootOutcome with
    | .failure msg => { ok := false, errors := [Note.plain "llm_call" msg] }
    | .ok rootSelection =>
      let prep := classifyPrep payload rootSelection
      if prep.1.concepts = [] ∧ prep.1.event = none then
        { ok := true, errors := [],
          warnings := prep.2
            ++ [Note.plain "validation" "no candidates for stage2 classification"] }
      else
        match stage2Outcome with
        | .failure msg => { ok := false, errors := [Note.plain "llm_call" msg] }
        | .ok parsed =>
          validateStage2 payload payload.scope.includesConcept
            payload.scope.includesEvent prep.2 prep.1 parsed

/-! ## Theorems -/

theorem selectRoots_mem_valid {candidates : List RootCandidate}
    {allowedIds : List String} {c : RootCandidate}
    (h : c ∈ selectRoots candidates allowedIds) :
    c ∈ candidates.filter (fun c => allowedIds.contains c.oClassId) := by
  unfold selectRoots at h
  set valid := candidates.filter (fun c => allowedIds.contains c.oClassId) with hv
  by_cases hvalid : valid = []
  · simp [hvalid] at h
  · simp only [if_neg hvalid] at h
    have h' := List.mem_of_mem_take h
    rw [List.mem_insertionSort] at h'
    by_cases hsel : valid.filter (fun c => mkRat 4 10 ≤ c.confidence) = []
    · simpa [hsel] using h'
    · simp only [if_neg hsel] at h'
      exact List.mem_of_mem_filter h'

theorem selectRoots_allowed {candidates : List RootCandidate}
    {allowedIds : List String} {c : RootCandidate}
    (h : c ∈ selectRoots candidates allowedIds) :
    allowedIds.contains c.oClassId := by
  have := selectRoots_mem_valid h
  exact (List.mem_filter.mp this).2

theorem selectRoots_sorted (candidates : List RootCandidate)
    (allowedIds : List String) :
    List.Sorted confGE (selectRoots candidates allowedIds) := by
  unfold selectRoots
  set valid := candidates.filter (fun c => allowedIds.contains c.oClassId)
  by_cases hvalid : valid = []
  · simp [hvalid]
  · simp only [if_neg hvalid]
    exact (List.sorted_insertionSort confGE _).sublist (List.take_sublist _ _)

theorem selectRoots_length_le (candidates : List RootCandidate)
    (allowedIds : List String) :
    (selectRoots candidates allowedIds).length ≤ 5 := by
  unfold selectRoots
  set valid := candidates.filter (fun c => allowedIds.contains c.oClassId)
  by_cases hvalid : valid = []
  · simp [hvalid]
  · simp only [if_neg hvalid]
    exact (List.length_take_le _ _)

theorem selectRoots_empty_iff (candidates : List RootCandidate)
    (allowedIds : List String) :
    selectRoots candidates allowedIds = [] ↔
      candidates.filter (fun c => allowedIds.contains c.oClassId) = [] := by
  unfold selectRoots
  set valid := candidates.filter (fun c => allowedIds.contains c.oClassId)
  by_cases hvalid : valid = []
  · simp [hvalid]
  · simp only [if_neg hvalid]
    constructor
    · intro htake
      exfalso
      set base := if valid.filter (fun c => mkRat 4 10 ≤ c.confidence) = []
        then valid else valid.filter (fun c => mkRat 4 10 ≤ c.confidence) with hb
      have hbase : base ≠ [] := by
        by_cases hsel : valid.filter (fun c => mkRat 4 10 ≤ c.confidence) = []
        · rw [hb, if_pos hsel]; exact hvalid
        · rw [hb, if_neg hsel]; exact hsel
      have hlen : (List.insertionSort confGE base).length = base.length :=
        List.length_insertionSort confGE base
      have : (List.insertionSort confGE base).take 5 ≠ [] := by
        intro hc
        have := congrArg List.length hc
        rw [List.length_take, hlen] at this
        simp only [List.length_nil] at this
        rcases Nat.min_eq_zero_iff.mp this with h5 | h0
        · omega
        · exact hbase (List.length_eq_zero.mp h0)
      exact this htake
    · intro hc
      exact absurd hc hvalid

theorem selectRoots_threshold {candidates : List RootCandidate}
    {allowedIds : List String}
    (hsel : ((candidates.filter (fun c => allowedIds.contains c.oClassId)).filter
        (fun c => mkRat 4 10 ≤ c.confidence)) ≠ []) :
    ∀ c ∈ selectRoots candidates allowedIds, mkRat 4 10 ≤ c.confidence := by
  intro c hc
  unfold selectRoots at hc
  set valid := candidates.filter (fun c => allowedIds.contains c.oClassId) with hv
  have hvalid : valid ≠ [] := by
    intro h
    rw [h] at hsel
    simp at hsel
  simp only [if_neg hvalid] at hc
  simp only [if_neg hsel] at hc
  have h' := List.mem_of_mem_take hc
  rw [List.mem_insertionSort] at h'
  have := (List.mem_filter.mp h').2
  exact of_decide_eq_true this

/-! ### DFS traversal: collect_leaves computes exactly the childless
reachable nodes -/

theorem mem_childrenOf_mem_map {edges : List SnapshotEdge} {p c : String}
    (h : c ∈ childrenOf edges p) : c ∈ edges.map (fun e => e.childId) := by
  unfold childrenOf at h
  rcases List.mem_map.mp h with ⟨e, he, rfl⟩
  exact List.mem_map.mpr ⟨e, List.mem_of_mem_filter he, rfl⟩

theorem childrenOf_length_le (edges : List SnapshotEdge) (p : String) :
    (childrenOf edges p).length ≤ edges.length := by
  unfold childrenOf
  rw [List.length_map]
  exact List.length_filter_le _ _

theorem dfsLoop_sound (edges : List SnapshotEdge) :
    ∀ (fuel : Nat) (visited stack : List String),
      ∀ n ∈ dfsLoop edges fuel visited stack,
        n ∈ visited ∨ ∃ s ∈ stack, Reaches edges s n := by
  intro fuel
  induction fuel with
  | zero =>
    intro visited stack n hn
    cases stack with
    | nil => exact Or.inl hn
    | cons a rest => exact Or.inl hn
  | succ f ih =>
    intro visited stack n hn
    cases stack with
    | nil => exact Or.inl hn
    | cons node rest =>
      rw [dfsLoop] at hn
      by_cases hv : node ∈ visited
      · rw [if_pos hv] at hn
        rcases ih visited rest n hn with h | ⟨s, hs, hr⟩
        · exact Or.inl h
        · exact Or.inr ⟨s, List.mem_cons_of_mem _ hs, hr⟩
      · rw [if_neg hv] at hn
        rcases ih (node :: visited) _ n hn with h | ⟨s, hs, hr⟩
        · rcases List.mem_cons.mp h with rfl | h'
          · exact Or.inr ⟨n, List.mem_cons_self _ _, Relation.ReflTransGen.refl⟩
          · exact Or.inl h'
        · rcases List.mem_append.mp hs with h' | h'
          · refine Or.inr ⟨node, List.mem_cons_self _ _, ?_⟩
            have hc : childStep edges node s := List.mem_reverse.mp h'
            exact Relation.ReflTransGen.head hc hr
          · exact Or.inr ⟨s, List.mem_cons_of_mem _ h', hr⟩

theorem dfsLoop_complete (edges : List SnapshotEdge) (root : String) :
    ∀ (fuel : Nat) (visited stack : List String),
      (∀ n ∈ stack, n ∈ insert root (edges.map (fun e => e.childId)).toFinset) →
      ((insert root (edges.map (fun e => e.childId)).toFinset \ visited.toFinset).card
          * (edges.length + 1) + stack.length ≤ fuel) →
      (∀ v ∈ visited, ∀ c ∈ childrenOf edges v, c ∈ visited ∨ c ∈ stack) →
      (∀ n ∈ visited, n ∈ dfsLoop edges fuel visited stack) ∧
      (∀ n ∈ stack, n ∈ dfsLoop edges fuel visited stack) ∧
      (∀ v ∈ dfsLoop edges fuel visited stack, ∀ c ∈ childrenOf edges v,
        c ∈ dfsLoop edges fuel visited stack) := by
  intro fuel
  induction fuel with
  | zero =>
    intro visited stack hstack hfuel hinv
    cases stack with
    | nil =>
      refine ⟨fun n hn => hn, fun n hn => absurd hn (List.not_mem_nil n), ?_⟩
      intro v hv c hc
      rcases hinv v hv c hc with h | h
      · exact h
      · exact absurd h (List.not_mem_nil c)
    | cons a rest =>
      exfalso
      simp only [List.length_cons] at hfuel
      omega
  | succ f ih =>
    intro visited stack hstack hfuel hinv
    cases stack with
    | nil =>
      refine ⟨fun n hn => hn, fun n hn => absurd hn (List.not_mem_nil n), ?_⟩
      intro v hv c hc
      rcases hinv v hv c hc with h | h
      · exact h
      · exact absurd h (List.not_mem_nil c)
    | cons node rest =>
      rw [dfsLoop]
      by_cases hv : node ∈ visited
      · rw [if_pos hv]
        have hrec := ih visited rest
          (fun n hn => hstack n (List.mem_cons_of_mem _ hn))
          (by simp only [List.length_cons] at hfuel; omega)
          (by
            intro v hvv c hc
            rcases hinv v hvv c hc with h | h
            · exact Or.inl h
            · rcases List.mem_cons.mp h with rfl | h'
              · exact Or.inl hv
              · exact Or.inr h')
        refine ⟨hrec.1, ?_, hrec.2.2⟩
        intro n hn
        rcases List.mem_cons.mp hn with rfl | h'
        · exact hrec.1 n hv
        · exact hrec.2.1 n h'
      · rw [if_neg hv]
        have hnodeS : node ∈ insert root (edges.map (fun e => e.childId)).toFinset :=
          hstack node (List.mem_cons_self _ _)
        have hcard : (insert root (edges.map (fun e => e.childId)).toFinset
            \ (node :: visited).toFinset).card + 1 ≤
            (insert root (edges.map (fun e => e.childId)).toFinset
            \ visited.toFinset).card := by
          have hsub : insert root (edges.map (fun e => e.childId)).toFinset
              \ (node :: visited).toFinset ⊆
              insert root (edges.map (fun e => e.childId)).toFinset
              \ visited.toFinset := by
            apply Finset.sdiff_subset_sdiff (le_refl _)
            intro x hx
            rw [List.toFinset_cons]
            exact Finset.mem_insert_of_mem hx
          have hss : insert root (edges.map (fun e => e.childId)).toFinset
              \ (node :: visited).toFinset ⊂
              insert root (edges.map (fun e => e.childId)).toFinset
              \ visited.toFinset := by
            rw [Finset.ssubset_iff_of_subset hsub]
            refine ⟨node, ?_, ?_⟩
            · rw [Finset.mem_sdiff]
              exact ⟨hnodeS, fun hmem => hv (List.mem_toFinset.mp hmem)⟩
            · rw [Finset.mem_sdiff]
              intro ⟨_, hnot⟩
              exact hnot (by rw [List.toFinset_cons]; exact Finset.mem_insert_self _ _)
          exact Finset.card_lt_card hss
        have hrec := ih (node :: visited) ((childrenOf edges node).reverse ++ rest)
          (by
            intro n hn
            rcases List.mem_append.mp hn with h' | h'
            · exact Finset.mem_insert_of_mem
                (List.mem_toFinset.mpr (mem_childrenOf_mem_map (List.mem_reverse.mp h')))
            · exact hstack n (List.mem_cons_of_mem _ h'))
          (by
            have hchild := childrenOf_length_le edges node
            simp only [List.length_append, List.length_reverse, List.length_cons] at hfuel ⊢
            have h1 : (insert root (edges.map (fun e => e.childId)).toFinset
                \ (node :: visited).toFinset).card * (edges.length + 1)
                + (edges.length + 1) ≤
                (insert root (edges.map (fun e => e.childId)).toFinset
                \ visited.toFinset).card * (edges.length + 1) := by
              calc (insert root (edges.map (fun e => e.childId)).toFinset
                    \ (node :: visited).toFinset).card * (edges.length + 1)
                    + (edges.length + 1)
                  = ((insert root (edges.map (fun e => e.childId)).toFinset
                    \ (node :: visited).toFinset).card + 1) * (edges.length + 1) := by ring
                _ ≤ (insert root (edges.map (fun e => e.childId)).toFinset
                    \ visited.toFinset).card * (edges.length + 1) :=
                  Nat.mul_le_mul_right _ hcard
            omega)
          (by
            intro v hvv c hc
            rcases List.mem_cons.mp hvv with rfl | h'
            · exact Or.inr (List.mem_append.mpr (Or.inl (List.mem_reverse.mpr hc)))
            · rcases hinv v h' c hc with h | h
              · exact Or.inl (List.mem_cons_of_mem _ h)
              · rcases List.mem_cons.mp h with rfl | h''
                · exact Or.inl (List.mem_cons_self _ _)
                · exact Or.inr (List.mem_append.mpr (Or.inr h'')))
        refine ⟨?_, ?_, hrec.2.2⟩
        · intro n hn
          exact hrec.1 n (List.mem_cons_of_mem _ hn)
        · intro n hn
          rcases List.mem_cons.mp hn with rfl | h'
          · exact hrec.1 n (List.mem_cons_self _ _)
          · exact hrec.2.1 n (List.mem_append.mpr (Or.inr h'))

theorem dfsFuel_sufficient (edges : List SnapshotEdge) (root : String) :
    (insert root (edges.map (fun e => e.childId)).toFinset \ ([] : List String).toFinset).card
      * (edges.length + 1) + 1 ≤ dfsFuel edges := by
  have h1 : (insert root (edges.map (fun e => e.childId)).toFinset).card ≤
      edges.length + 1 := by
    calc (insert root (edges.map (fun e => e.childId)).toFinset).card
        ≤ (edges.map (fun e => e.childId)).toFinset.card + 1 :=
          Finset.card_insert_le _ _
      _ ≤ (edges.map (fun e => e.childId)).length + 1 :=
          Nat.add_le_add_right (edges.map (fun e => e.childId)).toFinset_card_le 1
      _ = edges.length + 1 := by rw [List.length_map]
  have h2 : (insert root (edges.map (fun e => e.childId)).toFinset
      \ ([] : List String).toFinset).card ≤ edges.length + 1 := by
    refine le_trans (Finset.card_le_card ?_) h1
    exact Finset.sdiff_subset
  unfold dfsFuel
  calc (insert root (edges.map (fun e => e.childId)).toFinset
      \ ([] : List String).toFinset).card * (edges.length + 1) + 1
      ≤ (edges.length + 1) * (edges.length + 1) + 1 :=
        Nat.add_le_add_right (Nat.mul_le_mul_right _ h2) 1
    _ ≤ (edges.length + 1) * (edges.length + 2) := by nlinarith


theorem mem_dfs_visited (edges : List SnapshotEdge) (root n : String) :
    n ∈ dfsLoop edges (dfsFuel edges) [] [root] ↔ Reaches edges root n := by
  constructor
  · intro hn
    rcases dfsLoop_sound edges (dfsFuel edges) [] [root] n hn with h | ⟨s, hs, hr⟩
    · exact absurd h (List.not_mem_nil n)
    · rcases List.mem_singleton.mp hs with rfl
      exact hr
  · intro hr
    have hrec := dfsLoop_complete edges root (dfsFuel edges) [] [root]
      (by
        intro m hm
        rcases List.mem_singleton.mp hm with rfl
        exact Finset.mem_insert_self _ _)
      (by
        have := dfsFuel_sufficient edges root
        simpa using this)
      (by intro v hv; exact absurd hv (List.not_mem_nil v))
    have hroot : root ∈ dfsLoop edges (dfsFuel edges) [] [root] :=
      hrec.2.1 root (List.mem_singleton.mpr rfl)
    induction hr with
    | refl => exact hroot
    | tail _ hstep ih => exact hrec.2.2 _ ih _ hstep

theorem mem_collect_leaves (edges : List SnapshotEdge) (root n : String) :
    n ∈ collect_leaves edges root ↔
      Reaches edges root n ∧ childrenOf edges n = [] := by
  unfold collect_leaves
  rw [List.mem_filter, mem_dfs_visited]
  constructor
  · rintro ⟨hr, he⟩
    exact ⟨hr, List.isEmpty_iff.mp he⟩
  · rintro ⟨hr, he⟩
    exact ⟨hr, by simp [he]⟩

theorem collect_leaves_self {edges : List SnapshotEdge} {root : String}
    (h : childrenOf edges root = []) :
    ∀ n, n ∈ collect_leaves edges root ↔ n = root := by
  intro n
  rw [mem_collect_leaves]
  constructor
  · rintro ⟨hr, -⟩
    rcases hr.cases_head with rfl | ⟨c, hc, -⟩
    · rfl
    · rw [childStep, h] at hc
      exact absurd hc (List.not_mem_nil c)
  · rintro rfl
    exact ⟨Relation.ReflTransGen.refl, h⟩

theorem childrenOf_perm {e e' : List SnapshotEdge} (h : e.Perm e') (p : String) :
    (childrenOf e p).Perm (childrenOf e' p) :=
  (h.filter _).map _

theorem reaches_of_perm {e e' : List SnapshotEdge} (h : e.Perm e') {a b : String}
    (hr : Reaches e a b) : Reaches e' a b := by
  refine Relation.ReflTransGen.mono ?_ hr
  intro x y hxy
  exact (childrenOf_perm h x).mem_iff.mp hxy

theorem collect_leaves_perm {e e' : List SnapshotEdge} (h : e.Perm e')
    (root : String) :
    ∀ n, n ∈ collect_leaves e root ↔ n ∈ collect_leaves e' root := by
  intro n
  rw [mem_collect_leaves, mem_collect_leaves]
  constructor
  · rintro ⟨hr, he⟩
    refine ⟨reaches_of_perm h hr, ?_⟩
    have hp := childrenOf_perm h n
    rw [he] at hp
    exact hp.symm.eq_nil
  · rintro ⟨hr, he⟩
    refine ⟨reaches_of_perm h.symm hr, ?_⟩
    have hp := childrenOf_perm h.symm n
    rw [he] at hp
    exact hp.symm.eq_nil

/-! ### Dict and filter helper lemmas -/

theorem assocFind_mem {α : Type} {l : List (String × α)} {k : String} {v : α}
    (h : assocFind k l = some v) : (k, v) ∈ l := by
  induction l with
  | nil => exact absurd h (by simp [assocFind])
  | cons p rest ih =>
    rcases p with ⟨k', v'⟩
    rw [assocFind] at h
    by_cases hk : k' = k
    · rw [if_pos hk] at h
      rcases Option.some_injective _ h with rfl
      subst hk
      exact List.mem_cons_self _ _
    · rw [if_neg hk] at h
      exact List.mem_cons_of_mem _ (ih h)

theorem dictGet_mem {α : Type} {m : List (String × α)} {k : String} {v : α}
    (h : dictGet m k = some v) : (k, v) ∈ m :=
  List.mem_reverse.mp (assocFind_mem h)

theorem mem_leafFilterCls {clm : List (String × List String)}
    {cls : List Classification} {i : Classification}
    (h : i ∈ (leafFilterCls clm cls).1) :
    i ∈ cls ∧ conceptKeep clm i = true := by
  unfold leafFilterCls at h
  by_cases hc : cls = []
  · rw [if_pos hc] at h
    subst hc
    exact absurd h (List.not_mem_nil i)
  · rw [if_neg hc] at h
    simp only at h
    by_cases hd : (cls.filter (fun i => !(conceptKeep clm i))).map
        (fun i => DroppedClassification.mk i.conceptKey i.conceptType i.conceptName
          i.oClassId) = []
    · rw [if_pos hd] at h
      have hfil : cls.filter (fun i => !(conceptKeep clm i)) = [] :=
        List.map_eq_nil_iff.mp hd
      refine ⟨h, ?_⟩
      have := List.filter_eq_nil_iff.mp hfil i h
      simpa using this
    · rw [if_neg hd] at h
      exact ⟨List.mem_of_mem_filter h, (List.mem_filter.mp h).2⟩

theorem mem_leafFilterEvt {ids : List String}
    {eas : List EventActivityClassification} {i : EventActivityClassification}
    (h : i ∈ (leafFilterEvt ids eas).1) :
    i ∈ eas ∧ evtKeep ids i = true := by
  unfold leafFilterEvt at h
  by_cases hc : eas = []
  · rw [if_pos hc] at h
    subst hc
    exact absurd h (List.not_mem_nil i)
  · rw [if_neg hc] at h
    simp only at h
    by_cases hd : (eas.filter (fun i => !(evtKeep ids i))).map
        (fun i => DroppedEvent.mk i.eventId i.oClassId) = []
    · rw [if_pos hd] at h
      have hfil : eas.filter (fun i => !(evtKeep ids i)) = [] :=
        List.map_eq_nil_iff.mp hd
      refine ⟨h, ?_⟩
      have := List.filter_eq_nil_iff.mp hfil i h
      simpa using this
    · rw [if_neg hd] at h
      exact ⟨List.mem_of_mem_filter h, (List.mem_filter.mp h).2⟩

theorem mem_modeFilterCls {allowedIds : List String}
    {cls : List Classification} {i : Classification}
    (h : i ∈ (modeFilterCls allowedIds cls).1) :
    i ∈ cls ∧ allowedIds.contains i.oClassId = true := by
  unfold modeFilterCls at h
  by_cases hc : cls = []
  · rw [if_pos hc] at h
    subst hc
    exact absurd h (List.not_mem_nil i)
  · rw [if_neg hc] at h
    simp only at h
    by_cases hd : (cls.filter (fun i => !(allowedIds.contains i.oClassId))).map
        (fun i => DroppedClassification.mk i.conceptKey i.conceptType i.conceptName
          i.oClassId) = []
    · rw [if_pos hd] at h
      have hfil : cls.filter (fun i => !(allowedIds.contains i.oClassId)) = [] :=
        List.map_eq_nil_iff.mp hd
      refine ⟨h, ?_⟩
      have := List.filter_eq_nil_iff.mp hfil i h
      simpa using this
    · rw [if_neg hd] at h
      exact ⟨List.mem_of_mem_filter h, (List.mem_filter.mp h).2⟩

theorem mem_modeFilterEvt {allowedIds : List String}
    {eas : List EventActivityClassification} {i : EventActivityClassification}
    (h : i ∈ (modeFilterEvt allowedIds eas).1) :
    i ∈ eas ∧ allowedIds.contains i.oClassId = true := by
  unfold modeFilterEvt at h
  by_cases hc : eas = []
  · rw [if_pos hc] at h
    subst hc
    exact absurd h (List.not_mem_nil i)
  · rw [if_neg hc] at h
    simp only at h
    by_cases hd : (eas.filter (fun i => !(allowedIds.contains i.oClassId))).map
        (fun i => DroppedEvent.mk i.eventId i.oClassId) = []
    · rw [if_pos hd] at h
      have hfil : eas.filter (fun i => !(allowedIds.contains i.oClassId)) = [] :=
        List.map_eq_nil_iff.mp hd
      refine ⟨h, ?_⟩
      have := List.filter_eq_nil_iff.mp hfil i h
      simpa using this
    · rw [if_neg hd] at h
      exact ⟨List.mem_of_mem_filter h, (List.mem_filter.mp h).2⟩

theorem mem_backfillEvents {includeEvent : Bool} {resolved : Option String}
    {eas : List EventActivityClassification} {i : EventActivityClassification}
    (h : i ∈ (backfillEvents includeEvent resolved eas).1) :
    includeEvent = true ∧ (pyStr resolved).isSome = true ∧
      ∃ j ∈ eas, i = { j with eventId := resolved } := by
  unfold backfillEvents at h
  by_cases hie : includeEvent
  · rw [hie] at h
    simp only [Bool.not_true, Bool.false_eq_true, if_false] at h
    by_cases hres : (pyStr resolved).isNone
    · rw [if_pos hres] at h
      exact absurd h (List.not_mem_nil i)
    · rw [if_neg hres] at h
      rcases List.mem_map.mp h with ⟨j, hj, rfl⟩
      refine ⟨hie, ?_, j, hj, rfl⟩
      cases hps : pyStr resolved with
      | none => exact absurd (by rw [hps]; rfl) hres
      | some s => rfl
  · simp only [Bool.not_eq_true] at hie
    rw [hie] at h
    simp only [Bool.not_false, if_true] at h
    exact absurd h (List.not_mem_nil i)

/-! ### validateStage2 projection lemmas -/

theorem validateStage2_errors (payload : ClassifyRequest) (ic ie : Bool)
    (w : List Note) (s2 : Stage2Payload) (parsed : ClassifyResponse) :
    (validateStage2 payload ic ie w s2 parsed).errors = parsed.errors := rfl

theorem validateStage2_ok (payload : ClassifyRequest) (ic ie : Bool)
    (w : List Note) (s2 : Stage2Payload) (parsed : ClassifyResponse) :
    (validateStage2 payload ic ie w s2 parsed).ok =
      if parsed.errors ≠ [] then false else parsed.ok := rfl

theorem validateStage2_adds (payload : ClassifyRequest) (ic ie : Bool)
    (w : List Note) (s2 : Stage2Payload) (parsed : ClassifyResponse) :
    (validateStage2 payload ic ie w s2 parsed).oClassesToAdd =
      (if payload.mode = Mode.existing_only then [] else parsed.oClassesToAdd) := rfl

theorem validateStage2_edgeAdds (payload : ClassifyRequest) (ic ie : Bool)
    (w : List Note) (s2 : Stage2Payload) (parsed : ClassifyResponse) :
    (validateStage2 payload ic ie w s2 parsed).subclassEdgesToAdd =
      (if payload.mode = Mode.existing_only then [] else parsed.subclassEdgesToAdd) := rfl

theorem validateStage2_cls (payload : ClassifyRequest) (ic ie : Bool)
    (w : List Note) (s2 : Stage2Payload) (parsed : ClassifyResponse) :
    (validateStage2 payload ic ie w s2 parsed).classifications =
      (if payload.mode = Mode.existing_only
        then modeFilterCls (snapshotAllowedIds payload.snapshot)
          (leafFilterCls (conceptLeafMapOf s2)
            (if ic then parsed.classifications else [])).1
        else ((leafFilterCls (conceptLeafMapOf s2)
            (if ic then parsed.classifications else [])).1, ([] : List Note))).1 := rfl

theorem validateStage2_events (payload : ClassifyRequest) (ic ie : Bool)
    (w : List Note) (s2 : Stage2Payload) (parsed : ClassifyResponse) :
    (validateStage2 payload ic ie w s2 parsed).eventActivities =
      (if payload.mode = Mode.existing_only
        then modeFilterEvt (snapshotAllowedIds payload.snapshot)
          (leafFilterEvt (eventLeafIdsOf ie s2)
            (backfillEvents ie (resolvedEventIdOf payload) parsed.eventActivities).1).1
        else ((leafFilterEvt (eventLeafIdsOf ie s2)
            (backfillEvents ie (resolvedEventIdOf payload)
              parsed.eventActivities).1).1, ([] : List Note))).1 := rfl

theorem validateStage2_cls_spec {payload : ClassifyRequest} {ic ie : Bool}
    {w : List Note} {s2 : Stage2Payload} {parsed : ClassifyResponse}
    {i : Classification}
    (h : i ∈ (validateStage2 payload ic ie w s2 parsed).classifications) :
    i ∈ parsed.classifications ∧ ic = true ∧
      conceptKeep (conceptLeafMapOf s2) i = true ∧
      (payload.mode = Mode.existing_only →
        (snapshotAllowedIds payload.snapshot).contains i.oClassId = true) := by
  rw [validateStage2_cls] at h
  by_cases hm : payload.mode = Mode.existing_only
  · rw [if_pos hm] at h
    rcases mem_modeFilterCls h with ⟨h1, h2⟩
    rcases mem_leafFilterCls h1 with ⟨h3, h4⟩
    by_cases hic : ic
    · rw [if_pos hic] at h3
      exact ⟨h3, hic, h4, fun _ => h2⟩
    · rw [if_neg hic] at h3
      exact absurd h3 (List.not_mem_nil i)
  · rw [if_neg hm] at h
    simp only at h
    rcases mem_leafFilterCls h with ⟨h3, h4⟩
    by_cases hic : ic
    · rw [if_pos hic] at h3
      exact ⟨h3, hic, h4, fun hmm => absurd hmm hm⟩
    · rw [if_neg hic] at h3
      exact absurd h3 (List.not_mem_nil i)

theorem validateStage2_events_spec {payload : ClassifyRequest} {ic ie : Bool}
    {w : List Note} {s2 : Stage2Payload} {parsed : ClassifyResponse}
    {i : EventActivityClassification}
    (h : i ∈ (validateStage2 payload ic ie w s2 parsed).eventActivities) :
    ie = true ∧ (pyStr (resolvedEventIdOf payload)).isSome = true ∧
      (∃ j ∈ parsed.eventActivities, i = { j with eventId := resolvedEventIdOf payload }) ∧
      evtKeep (eventLeafIdsOf ie s2) i = true ∧
      (payload.mode = Mode.existing_only →
        (snapshotAllowedIds payload.snapshot).contains i.oClassId = true) := by
  rw [validateStage2_events] at h
  by_cases hm : payload.mode = Mode.existing_only
  · rw [if_pos hm] at h
    rcases mem_modeFilterEvt h with ⟨h1, h2⟩
    rcases mem_leafFilterEvt h1 with ⟨h3, h4⟩
    rcases mem_backfillEvents h3 with ⟨h5, h6, h7⟩
    exact ⟨h5, h6, h7, h4, fun _ => h2⟩
  · rw [if_neg hm] at h
    simp only at h
    rcases mem_leafFilterEvt h with ⟨h3, h4⟩
    rcases mem_backfillEvents h3 with ⟨h5, h6, h7⟩
    exact ⟨h5, h6, h7, h4, fun hmm => absurd hmm hm⟩

/-! ### classify dispatch lemmas -/

theorem classify_validated (payload : ClassifyRequest)
    (rs : RootSelectionResponse) (parsed : ClassifyResponse)
    (hroots : (getRootClasses payload).isEmpty = false)
    (hsc : ¬((classifyPrep payload rs).1.concepts = []
      ∧ (classifyPrep payload rs).1.event = none)) :
    classify payload true (.ok rs) (.ok parsed) =
      validateStage2 payload payload.scope.includesConcept
        payload.scope.includesEvent (classifyPrep payload rs).2
        (classifyPrep payload rs).1 parsed := by
  unfold classify
  rw [if_neg (by simp), if_neg (by simp [hroots])]
  simp only [if_neg hsc]

theorem classify_disabled (payload : ClassifyRequest)
    (ro : Outcome RootSelectionResponse) (so : Outcome ClassifyResponse) :
    classify payload false ro so =
      { ok := false, errors := [Note.plain "disabled" "openrouter_key_missing"] } := by
  unfold classify
  rw [if_pos (by simp)]

theorem classify_no_roots (payload : ClassifyRequest)
    (ro : Outcome RootSelectionResponse) (so : Outcome ClassifyResponse)
    (hroots : (getRootClasses payload).isEmpty = true) :
    classify payload true ro so =
      { ok := false,
        errors := [Note.plain "validation" "no root oclasses available in snapshot"] } := by
  unfold classify
  rw [if_neg (by simp), if_pos hroots]

theorem classify_short_circuit (payload : ClassifyRequest)
    (rs : RootSelectionResponse) (so : Outcome ClassifyResponse)
    (hroots : (getRootClasses payload).isEmpty = false)
    (hsc : (classifyPrep payload rs).1.concepts = []
      ∧ (classifyPrep payload rs).1.event = none) :
    classify payload true (.ok rs) so =
      { ok := true, errors := [],
        warnings := (classifyPrep payload rs).2
          ++ [Note.plain "validation" "no candidates for stage2 classification"] } := by
  unfold classify
  rw [if_neg (by simp), if_neg (by simp [hroots])]
  simp only [if_pos hsc]

theorem classify_root_failure (payload : ClassifyRequest) (msg : String)
    (so : Outcome ClassifyResponse)
    (hroots : (getRootClasses payload).isEmpty = false) :
    classify payload true (.failure msg) so =
      { ok := false, errors := [Note.plain "llm_call" msg] } := by
  unfold classify
  rw [if_neg (by simp), if_neg (by simp [hroots])]

theorem classify_stage2_failure (payload : ClassifyRequest)
    (rs : RootSelectionResponse) (msg : String)
    (hroots : (getRootClasses payload).isEmpty = false)
    (hsc : ¬((classifyPrep payload rs).1.concepts = []
      ∧ (classifyPrep payload rs).1.event = none)) :
    classify payload true (.ok rs) (.failure msg) =
      { ok := false, errors := [Note.plain "llm_call" msg] } := by
  unfold classify
  rw [if_neg (by simp), if_neg (by simp [hroots])]
  simp only [if_neg hsc]

theorem validateStage2_warnings (payload : ClassifyRequest) (ic ie : Bool)
    (w : List Note) (s2 : Stage2Payload) (parsed : ClassifyResponse) :
    (validateStage2 payload ic ie w s2 parsed).warnings =
      parsed.warnings ++ w
      ++ (backfillEvents ie (resolvedEventIdOf payload) parsed.eventActivities).2
      ++ (leafFilterCls (conceptLeafMapOf s2)
          (if ic then parsed.classifications else [])).2
      ++ (if ic ∧ s2.concepts ≠ []
            ∧ (leafFilterCls (conceptLeafMapOf s2)
              (if ic then parsed.classifications else [])).1 = [] then
          [Note.countNote "classification"
            "no concept classifications returned; left unclassified" s2.concepts.length]
        else [])
      ++ (leafFilterEvt (eventLeafIdsOf ie s2)
          (backfillEvents ie (resolvedEventIdOf payload) parsed.eventActivities).1).2
      ++ (if ie ∧ s2.event.isSome
            ∧ (leafFilterEvt (eventLeafIdsOf ie s2)
              (backfillEvents ie (resolvedEventIdOf payload)
                parsed.eventActivities).1).1 = [] then
          [Note.plain "classification" "no event activities returned; left unclassified"]
        else [])
      ++ (if payload.mode = Mode.existing_only
            ∧ (parsed.oClassesToAdd ≠ [] ∨ parsed.subclassEdgesToAdd ≠ []) then
          [Note.plain "validation" "existing_only mode: stripped class/edge additions"]
        else [])
      ++ (if payload.mode = Mode.existing_only
          then modeFilterCls (snapshotAllowedIds payload.snapshot)
            (leafFilterCls (conceptLeafMapOf s2)
              (if ic then parsed.classifications else [])).1
          else ((leafFilterCls (conceptLeafMapOf s2)
              (if ic then parsed.classifications else [])).1, ([] : List Note))).2
      ++ (if payload.mode = Mode.existing_only
          then modeFilterEvt (snapshotAllowedIds payload.snapshot)
            (leafFilterEvt (eventLeafIdsOf ie s2)
              (backfillEvents ie (resolvedEventIdOf payload)
                parsed.eventActivities).1).1
          else ((leafFilterEvt (eventLeafIdsOf ie s2)
              (backfillEvents ie (resolvedEventIdOf payload)
                parsed.eventActivities).1).1, ([] : List Note))).2 := rfl

theorem validateStage2_cls_nil {payload : ClassifyRequest} {ic ie : Bool}
    {w : List Note} {s2 : Stage2Payload} {parsed : ClassifyResponse}
    (hic : ic = false) :
    (validateStage2 payload ic ie w s2 parsed).classifications = [] := by
  rcases List.eq_nil_or_concat ((validateStage2 payload ic ie w s2 parsed).classifications)
    with h | ⟨l, x, h⟩
  · exact h
  · exfalso
    have hx : x ∈ (validateStage2 payload ic ie w s2 parsed).classifications := by
      rw [h, List.concat_eq_append]; exact List.mem_concat_self l x
    have := (validateStage2_cls_spec hx).2.1
    rw [hic] at this
    exact Bool.false_ne_true this

theorem validateStage2_events_nil {payload : ClassifyRequest} {ic ie : Bool}
    {w : List Note} {s2 : Stage2Payload} {parsed : ClassifyResponse}
    (hie : ie = false) :
    (validateStage2 payload ic ie w s2 parsed).eventActivities = [] := by
  rcases List.eq_nil_or_concat ((validateStage2 payload ic ie w s2 parsed).eventActivities)
    with h | ⟨l, x, h⟩
  · exact h
  · exfalso
    have hx : x ∈ (validateStage2 payload ic ie w s2 parsed).eventActivities := by
      rw [h, List.concat_eq_append]; exact List.mem_concat_self l x
    have := (validateStage2_events_spec hx).1
    rw [hie] at this
    exact Bool.false_ne_true this

theorem conceptKeep_mem {clm : List (String × List String)} {i : Classification}
    (h : conceptKeep clm i = true) :
    i.oClassId ∈ dictGetD clm i.conceptKey [] := by
  unfold conceptKeep at h
  unfold dictGetD
  cases hd : dictGet clm i.conceptKey with
  | none => rw [hd] at h; exact absurd h (by simp)
  | some allowed =>
    rw [hd] at h
    simpa using h

theorem evtKeep_mem {ids : List String} {i : EventActivityClassification}
    (h : evtKeep ids i = true) : i.oClassId ∈ ids := by
  unfold evtKeep at h
  rcases Bool.and_eq_true_iff.mp h with ⟨-, h2⟩
  simpa using h2

theorem classify_cls_master {payload : ClassifyRequest} {enabled : Bool}
    {ro : Outcome RootSelectionResponse} {so : Outcome ClassifyResponse}
    {i : Classification}
    (h : i ∈ (classify payload enabled ro so).classifications) :
    ∃ rs parsed, ro = Outcome.ok rs ∧ so = Outcome.ok parsed ∧ enabled = true ∧
      i ∈ parsed.classifications ∧ payload.scope.includesConcept = true ∧
      conceptKeep (conceptLeafMapOf (classifyPrep payload rs).1) i = true ∧
      (payload.mode = Mode.existing_only →
        (snapshotAllowedIds payload.snapshot).contains i.oClassId = true) := by
  cases enabled with
  | false =>
    rw [classify_disabled] at h
    exact absurd h (List.not_mem_nil i)
  | true =>
    cases hroots : (getRootClasses payload).isEmpty with
    | true =>
      rw [classify_no_roots payload ro so hroots] at h
      exact absurd h (List.not_mem_nil i)
    | false =>
      cases ro with
      | failure msg =>
        rw [classify_root_failure payload msg so hroots] at h
        exact absurd h (List.not_mem_nil i)
      | ok rs =>
        by_cases hsc : ((classifyPrep payload rs).1.concepts = []
            ∧ (classifyPrep payload rs).1.event = none)
        · rw [classify_short_circuit payload rs so hroots hsc] at h
          exact absurd h (List.not_mem_nil i)
        · cases so with
          | failure msg =>
            rw [classify_stage2_failure payload rs msg hroots hsc] at h
            exact absurd h (List.not_mem_nil i)
          | ok parsed =>
            rw [classify_validated payload rs parsed hroots hsc] at h
            rcases validateStage2_cls_spec h with ⟨h1, h2, h3, h4⟩
            exact ⟨rs, parsed, rfl, rfl, rfl, h1, h2, h3, h4⟩

theorem classify_events_master {payload : ClassifyRequest} {enabled : Bool}
    {ro : Outcome RootSelectionResponse} {so : Outcome ClassifyResponse}
    {i : EventActivityClassification}
    (h : i ∈ (classify payload enabled ro so).eventActivities) :
    ∃ rs parsed, ro = Outcome.ok rs ∧ so = Outcome.ok parsed ∧ enabled = true ∧
      payload.scope.includesEvent = true ∧
      (pyStr (resolvedEventIdOf payload)).isSome = true ∧
      (∃ j ∈ parsed.eventActivities, i = { j with eventId := resolvedEventIdOf payload }) ∧
      evtKeep (eventLeafIdsOf payload.scope.includesEvent (classifyPrep payload rs).1) i
        = true ∧
      (payload.mode = Mode.existing_only →
        (snapshotAllowedIds payload.snapshot).contains i.oClassId = true) := by
  cases enabled with
  | false =>
    rw [classify_disabled] at h
    exact absurd h (List.not_mem_nil i)
  | true =>
    cases hroots : (getRootClasses payload).isEmpty with
    | true =>
      rw [classify_no_roots payload ro so hroots] at h
      exact absurd h (List.not_mem_nil i)
    | false =>
      cases ro with
      | failure msg =>
        rw [classify_root_failure payload msg so hroots] at h
        exact absurd h (List.not_mem_nil i)
      | ok rs =>
        by_cases hsc : ((classifyPrep payload rs).1.concepts = []
            ∧ (classifyPrep payload rs).1.event = none)
        · rw [classify_short_circuit payload rs so hroots hsc] at h
          exact absurd h (List.not_mem_nil i)
        · cases so with
          | failure msg =>
            rw [classify_stage2_failure payload rs msg hroots hsc] at h
            exact absurd h (List.not_mem_nil i)
          | ok parsed =>
            rw [classify_validated payload rs parsed hroots hsc] at h
            rcases validateStage2_events_spec h with ⟨h1, h2, h3, h4, h5⟩
            exact ⟨rs, parsed, rfl, rfl, rfl, h1, h2, h3, h4, h5⟩

theorem classify_adds_nil {payload : ClassifyRequest} {enabled : Bool}
    {ro : Outcome RootSelectionResponse} {so : Outcome ClassifyResponse}
    (hmode : payload.mode = Mode.existing_only) :
    (classify payload enabled ro so).oClassesToAdd = [] ∧
    (classify payload enabled ro so).subclassEdgesToAdd = [] := by
  cases enabled with
  | false => rw [classify_disabled]; exact ⟨rfl, rfl⟩
  | true =>
    cases hroots : (getRootClasses payload).isEmpty with
    | true => rw [classify_no_roots payload ro so hroots]; exact ⟨rfl, rfl⟩
    | false =>
      cases ro with
      | failure msg =>
        rw [classify_root_failure payload msg so hroots]; exact ⟨rfl, rfl⟩
      | ok rs =>
        by_cases hsc : ((classifyPrep payload rs).1.concepts = []
            ∧ (classifyPrep payload rs).1.event = none)
        · rw [classify_short_circuit payload rs so hroots hsc]; exact ⟨rfl, rfl⟩
        · cases so with
          | failure msg =>
            rw [classify_stage2_failure payload rs msg hroots hsc]; exact ⟨rfl, rfl⟩
          | ok parsed =>
            rw [classify_validated payload rs parsed hroots hsc,
              validateStage2_adds, validateStage2_edgeAdds,
              if_pos hmode, if_pos hmode]
            exact ⟨rfl, rfl⟩

theorem collect_leaves_childless {edges : List SnapshotEdge} {root : String}
    (h : childrenOf edges root = []) : collect_leaves edges root = [root] := by
  have hfuel : dfsFuel edges ≠ 0 := by
    unfold dfsFuel
    intro hc
    rcases Nat.mul_eq_zero.mp hc with h1 | h2 <;> omega
  obtain ⟨f, hf⟩ := Nat.exists_eq_succ_of_ne_zero hfuel
  unfold collect_leaves
  rw [hf]
  have hstep : dfsLoop edges (f + 1) [] [root] = [root] := by
    rw [dfsLoop, if_neg (List.not_mem_nil root), h]
    simp only [List.reverse_nil, List.nil_append]
    cases f <;> rfl
  rw [hstep]
  simp [h]

theorem leafFilterCls_snd {clm : List (String × List String)}
    {cls : List Classification}
    (hviol : cls.filter (fun i => !(conceptKeep clm i)) ≠ []) :
    (leafFilterCls clm cls).2 =
      [Note.droppedCls "validation"
        "leaf-only: stripped classifications not in candidate leaves"
        ((cls.filter (fun i => !(conceptKeep clm i))).map
          (fun i => DroppedClassification.mk i.conceptKey i.conceptType
            i.conceptName i.oClassId)).length
        (((cls.filter (fun i => !(conceptKeep clm i))).map
          (fun i => DroppedClassification.mk i.conceptKey i.conceptType
            i.conceptName i.oClassId)).take 50)] := by
  have hcls : cls ≠ [] := by
    intro h
    rw [h] at hviol
    exact hviol rfl
  have hmap : (cls.filter (fun i => !(conceptKeep clm i))).map
      (fun i => DroppedClassification.mk i.conceptKey i.conceptType
        i.conceptName i.oClassId) ≠ [] := by
    intro h
    exact hviol (List.map_eq_nil_iff.mp h)
  unfold leafFilterCls
  rw [if_neg hcls]
  simp only
  rw [if_neg hmap]

theorem leafFilterEvt_snd {ids : List String}
    {eas : List EventActivityClassification}
    (hviol : eas.filter (fun i => !(evtKeep ids i)) ≠ []) :
    (leafFilterEvt ids eas).2 =
      [Note.droppedEvt "validation"
        "leaf-only: stripped event activities not in candidate leaves"
        ((eas.filter (fun i => !(evtKeep ids i))).map
          (fun i => DroppedEvent.mk i.eventId i.oClassId)).length
        (((eas.filter (fun i => !(evtKeep ids i))).map
          (fun i => DroppedEvent.mk i.eventId i.oClassId)).take 50)] := by
  have heas : eas ≠ [] := by
    intro h
    rw [h] at hviol
    exact hviol rfl
  have hmap : (eas.filter (fun i => !(evtKeep ids i))).map
      (fun i => DroppedEvent.mk i.eventId i.oClassId) ≠ [] := by
    intro h
    exact hviol (List.map_eq_nil_iff.mp h)
  unfold leafFilterEvt
  rw [if_neg heas]
  simp only
  rw [if_neg hmap]

theorem modeFilterCls_snd {allowedIds : List String}
    {cls : List Classification}
    (hviol : cls.filter (fun i => !(allowedIds.contains i.oClassId)) ≠ []) :
    (modeFilterCls allowedIds cls).2 =
      [Note.droppedCls "validation"
        "existing_only mode: stripped classifications not in snapshot"
        ((cls.filter (fun i => !(allowedIds.contains i.oClassId))).map
          (fun i => DroppedClassification.mk i.conceptKey i.conceptType
            i.conceptName i.oClassId)).length
        (((cls.filter (fun i => !(allowedIds.contains i.oClassId))).map
          (fun i => DroppedClassification.mk i.conceptKey i.conceptType
            i.conceptName i.oClassId)).take 50)] := by
  have hcls : cls ≠ [] := by
    intro h
    rw [h] at hviol
    exact hviol rfl
  have hmap : (cls.filter (fun i => !(allowedIds.contains i.oClassId))).map
      (fun i => DroppedClassification.mk i.conceptKey i.conceptType
        i.conceptName i.oClassId) ≠ [] := by
    intro h
    exact hviol (List.map_eq_nil_iff.mp h)
  unfold modeFilterCls
  rw [if_neg hcls]
  simp only
  rw [if_neg hmap]

theorem modeFilterEvt_snd {allowedIds : List String}
    {eas : List EventActivityClassification}
    (hviol : eas.filter (fun i => !(allowedIds.contains i.oClassId)) ≠ []) :
    (modeFilterEvt allowedIds eas).2 =
      [Note.droppedEvt "validation"
        "existing_only mode: stripped event activities not in snapshot"
        ((eas.filter (fun i => !(allowedIds.contains i.oClassId))).map
          (fun i => DroppedEvent.mk i.eventId i.oClassId)).length
        (((eas.filter (fun i => !(allowedIds.contains i.oClassId))).map
          (fun i => DroppedEvent.mk i.eventId i.oClassId)).take 50)] := by
  have heas : eas ≠ [] := by
    intro h
    rw [h] at hviol
    exact hviol rfl
  have hmap : (eas.filter (fun i => !(allowedIds.contains i.oClassId))).map
      (fun i => DroppedEvent.mk i.eventId i.oClassId) ≠ [] := by
    intro h
    exact hviol (List.map_eq_nil_iff.mp h)
  unfold modeFilterEvt
  rw [if_neg heas]
  simp only
  rw [if_neg hmap]

theorem backfillEvents_snd_of_drop {ie : Bool} {resolved : Option String}
    {eas : List EventActivityClassification}
    (hie : ie = true) (hres : (pyStr resolved).isNone = true) (heas : eas ≠ []) :
    (backfillEvents ie resolved eas).2 =
      [Note.plain "validation" "event context missing; ignoring eventActivities"] := by
  subst hie
  unfold backfillEvents
  rw [if_neg (by simp), if_pos hres]
  simp only
  rw [if_pos heas]

theorem mem_warnings_of_backfill {payload : ClassifyRequest} {ic ie : Bool}
    {w : List Note} {s2 : Stage2Payload} {parsed : ClassifyResponse} {x : Note}
    (hx : x ∈ (backfillEvents ie (resolvedEventIdOf payload)
      parsed.eventActivities).2) :
    x ∈ (validateStage2 payload ic ie w s2 parsed).warnings := by
  rw [validateStage2_warnings]
  simp only [List.mem_append]
  tauto

theorem mem_warnings_of_leafCls {payload : ClassifyRequest} {ic ie : Bool}
    {w : List Note} {s2 : Stage2Payload} {parsed : ClassifyResponse} {x : Note}
    (hx : x ∈ (leafFilterCls (conceptLeafMapOf s2)
      (if ic then parsed.classifications else [])).2) :
    x ∈ (validateStage2 payload ic ie w s2 parsed).warnings := by
  rw [validateStage2_warnings]
  simp only [List.mem_append]
  tauto

theorem mem_warnings_of_leafEvt {payload : ClassifyRequest} {ic ie : Bool}
    {w : List Note} {s2 : Stage2Payload} {parsed : ClassifyResponse} {x : Note}
    (hx : x ∈ (leafFilterEvt (eventLeafIdsOf ie s2)
      (backfillEvents ie (resolvedEventIdOf payload) parsed.eventActivities).1).2) :
    x ∈ (validateStage2 payload ic ie w s2 parsed).warnings := by
  rw [validateStage2_warnings]
  simp only [List.mem_append]
  tauto

theorem mem_warnings_of_strip {payload : ClassifyRequest} {ic ie : Bool}
    {w : List Note} {s2 : Stage2Payload} {parsed : ClassifyResponse}
    (hm : payload.mode = Mode.existing_only)
    (hadds : parsed.oClassesToAdd ≠ [] ∨ parsed.subclassEdgesToAdd ≠ []) :
    Note.plain "validation" "existing_only mode: stripped class/edge additions"
      ∈ (validateStage2 payload ic ie w s2 parsed).warnings := by
  have hin : Note.plain "validation" "existing_only mode: stripped class/edge additions"
      ∈ (if payload.mode = Mode.existing_only
          ∧ (parsed.oClassesToAdd ≠ [] ∨ parsed.subclassEdgesToAdd ≠ []) then
        [Note.plain "validation" "existing_only mode: stripped class/edge additions"]
      else []) := by
    rw [if_pos ⟨hm, hadds⟩]
    exact List.mem_singleton.mpr rfl
  rw [validateStage2_warnings]
  simp only [List.mem_append]
  tauto

theorem mem_warnings_of_modeCls {payload : ClassifyRequest} {ic ie : Bool}
    {w : List Note} {s2 : Stage2Payload} {parsed : ClassifyResponse} {x : Note}
    (hm : payload.mode = Mode.existing_only)
    (hx : x ∈ (modeFilterCls (snapshotAllowedIds payload.snapshot)
      (leafFilterCls (conceptLeafMapOf s2)
        (if ic then parsed.classifications else [])).1).2) :
    x ∈ (validateStage2 payload ic ie w s2 parsed).warnings := by
  have hin : x ∈ (if payload.mode = Mode.existing_only
      then modeFilterCls (snapshotAllowedIds payload.snapshot)
        (leafFilterCls (conceptLeafMapOf s2)
          (if ic then parsed.classifications else [])).1
      else ((leafFilterCls (conceptLeafMapOf s2)
          (if ic then parsed.classifications else [])).1, ([] : List Note))).2 := by
    rw [if_pos hm]
    exact hx
  rw [validateStage2_warnings]
  simp only [List.mem_append]
  tauto

theorem mem_warnings_of_modeEvt {payload : ClassifyRequest} {ic ie : Bool}
    {w : List Note} {s2 : Stage2Payload} {parsed : ClassifyResponse} {x : Note}
    (hm : payload.mode = Mode.existing_only)
    (hx : x ∈ (modeFilterEvt (snapshotAllowedIds payload.snapshot)
      (leafFilterEvt (eventLeafIdsOf ie s2)
        (backfillEvents ie (resolvedEventIdOf payload)
          parsed.eventActivities).1).1).2) :
    x ∈ (validateStage2 payload ic ie w s2 parsed).warnings := by
  have hin : x ∈ (if payload.mode = Mode.existing_only
      then modeFilterEvt (snapshotAllowedIds payload.snapshot)
        (leafFilterEvt (eventLeafIdsOf ie s2)
          (backfillEvents ie (resolvedEventIdOf payload)
            parsed.eventActivities).1).1
      else ((leafFilterEvt (eventLeafIdsOf ie s2)
          (backfillEvents ie (resolvedEventIdOf payload)
            parsed.eventActivities).1).1, ([] : List Note))).2 := by
    rw [if_pos hm]
    exact hx
  rw [validateStage2_warnings]
  simp only [List.mem_append]
  tauto

theorem snapshotAllowedIds_sub {s : Snapshot} {x : String}
    (h : x ∈ snapshotAllowedIds s) : x ∈ s.oClasses.map (fun c => c.id) := by
  unfold snapshotAllowedIds at h
  rcases List.mem_map.mp h with ⟨c, hc, rfl⟩
  exact List.mem_map.mpr ⟨c, List.mem_of_mem_filter hc, rfl⟩

theorem pyStr_isSome {o : Option String} (h : (pyStr o).isSome = true) :
    ∃ v, o = some v ∧ v ≠ "" := by
  cases o with
  | none => exact absurd h (by simp [pyStr])
  | some s =>
    refine ⟨s, rfl, ?_⟩
    intro hs
    subst hs
    exact absurd h (by simp [pyStr])

/-! ## Concrete fixtures for witnesses and counterexamples (modelled on
scripts/test_classify_leaf_only.py) -/

/-- A snapshot with an Entity root (one child) and an Activity root (one
child). -/
def fxSnapshot : Snapshot :=
  { oClasses :=
      [ { id := "E_Place", facet := some "Entity", isRoot := some true },
        { id := "E_Restaurant", facet := some "Entity" },
        { id := "A_Activity", facet := some "Activity", isRoot := some true },
        { id := "A_Climbing", facet := some "Activity" } ],
    subclassEdges :=
      [ { childId := "E_Restaurant", parentId := "E_Place" },
        { childId := "A_Climbing", parentId := "A_Activity" } ] }

/-- A single concept mention. -/
def fxConcept : ConceptSample :=
  { conceptKey := "Place::X", conceptType := "Place", conceptName := "X",
    sourceText := some "lunch at X" }

/-- A classify request against fxSnapshot, scope both, existing_only. -/
def fxRequest : ClassifyRequest :=
  { concepts := [fxConcept], snapshot := fxSnapshot, mode := .existing_only,
    scope := .both, eventId := some "evt-1",
    eventTitle := some "Climbing with Alice" }

/-- A stage-1 oracle answer selecting the two roots. -/
def fxRootSelection : RootSelectionResponse :=
  { conceptRoots := [{ conceptKey := "Place::X",
                       roots := [{ oClassId := "E_Place", confidence := mkRat 9 10 }] }],
    eventRoots := [{ oClassId := "A_Activity", confidence := mkRat 19 20 }] }

/-- The in-candidate classification record the oracle returns. -/
def fxKept : Classification :=
  { conceptKey := "Place::X", conceptType := "Place", conceptName := "X",
    oClassId := "E_Restaurant", confidence := mkRat 4 5 }

/-- An off-candidate classification record (an unrelated Activity leaf). -/
def fxBadCls : Classification :=
  { conceptKey := "Place::X", conceptType := "Place", conceptName := "X",
    oClassId := "A_Climbing", confidence := mkRat 3 5 }

/-- The event-activity record the oracle returns (eventId mismatching the
request). -/
def fxEvtAct : EventActivityClassification :=
  { eventId := some "wrong-id", oClassId := "A_Climbing", confidence := mkRat 9 10 }

/-- A stage-2 oracle answer inside the candidate sets. -/
def fxParsed : ClassifyResponse :=
  { classifications := [fxKept], eventActivities := [fxEvtAct] }

/-- A stage-2 oracle answer with an off-candidate classification (to an
unrelated Activity leaf) that the validator must strip. -/
def fxParsedBad : ClassifyResponse :=
  { classifications := [fxKept, fxBadCls], eventActivities := [fxEvtAct] }

/-- A stage-2 oracle answer whose own ok flag is false although it carries no
error entry. -/
def fxParsedNotOk : ClassifyResponse := { ok := false }

/-- A stage-2 oracle answer carrying an error entry. -/
def fxParsedErr : ClassifyResponse :=
  { errors := [Note.oracleRaw "oracle-reported failure"] }

/-- A stage-2 oracle answer proposing a new class, which existing_only must
strip. -/
def fxParsedAdds : ClassifyResponse :=
  { classifications := [fxKept],
    oClassesToAdd := [{ id := "E_New", facet := some "Entity" }] }

/-- A snapshot whose Entity root points at a child id that is absent from
the class list. -/
def fxSnapshotMissingLeaf : Snapshot :=
  { oClasses := [{ id := "E_Place", facet := some "Entity", isRoot := some true }],
    subclassEdges := [{ childId := "E_Ghost", parentId := "E_Place" }] }

/-- A concept-scope request against fxSnapshotMissingLeaf. -/
def fxRequestMissingLeaf : ClassifyRequest :=
  { concepts := [fxConcept], snapshot := fxSnapshotMissingLeaf,
    scope := .concept }

/-- A validated stage-1 map selecting E_Place for the concept. -/
def fxMapEPlace : List (String × List RootCandidate) :=
  [("Place::X", [{ oClassId := "E_Place", confidence := mkRat 9 10 }])]

/-- A snapshot whose Entity root sits on a two-node cycle, so its traversal
yields no leaves. -/
def fxSnapshotCycle : Snapshot :=
  { oClasses := [{ id := "R", facet := some "Entity", isRoot := some true },
                 { id := "A", facet := some "Entity" }],
    subclassEdges := [{ childId := "A", parentId := "R" },
                      { childId := "R", parentId := "A" }] }

/-- A concept-scope request against fxSnapshotCycle. -/
def fxRequestCycle : ClassifyRequest :=
  { concepts := [fxConcept], snapshot := fxSnapshotCycle, scope := .concept }

/-- A validated stage-1 map selecting the cyclic root R. -/
def fxMapR : List (String × List RootCandidate) :=
  [("Place::X", [{ oClassId := "R", confidence := mkRat 9 10 }])]

/-- A snapshot where a facet-less flagged root X shares its only leaf L with
the Entity root R. -/
def fxSnapshotOverlap : Snapshot :=
  { oClasses := [{ id := "X", isRoot := some true },
                 { id := "R", facet := some "Entity", isRoot := some true },
                 { id := "L", facet := some "Entity" }],
    subclassEdges := [{ childId := "L", parentId := "X" },
                      { childId := "L", parentId := "R" }] }

/-- A concept-scope request against fxSnapshotOverlap. -/
def fxRequestOverlap : ClassifyRequest :=
  { concepts := [fxConcept], snapshot := fxSnapshotOverlap,
    mode := .existing_only, scope := .concept }

/-- A stage-1 answer selecting the Entity root R for the concept. -/
def fxRootSelOverlap : RootSelectionResponse :=
  { conceptRoots := [{ conceptKey := "Place::X",
                       roots := [{ oClassId := "R", confidence := mkRat 9 10 }] }] }

/-- A stage-2 answer classifying the concept to the shared leaf L. -/
def fxParsedOverlap : ClassifyResponse :=
  { classifications := [{ conceptKey := "Place::X", conceptType := "Place",
                          conceptName := "X", oClassId := "L",
                          confidence := mkRat 4 5 }] }

/-- Stage-1 raw candidates: one hallucinated id and two valid low-confidence
candidates. -/
def fxCands : List RootCandidate :=
  [ { oClassId := "Bogus", confidence := mkRat 99 100 },
    { oClassId := "E_Place", confidence := mkRat 1 10 },
    { oClassId := "A_Activity", confidence := mkRat 3 10 } ]

/-! ## Claim theorems -/

/-- C8: Scope invariant — for every classify request, scope = concept forces
the final eventActivities list empty and scope = event forces the final
classifications list empty, regardless of oracle outcomes and mode. -/
theorem claim_C8_scope_invariant (payload : ClassifyRequest) (enabled : Bool)
    (ro : Outcome RootSelectionResponse) (so : Outcome ClassifyResponse) :
    (payload.scope = Scope.concept →
      (classify payload enabled ro so).eventActivities = []) ∧
    (payload.scope = Scope.event →
      (classify payload enabled ro so).classifications = []) := by
  constructor
  · intro hs
    rcases List.eq_nil_or_concat ((classify payload enabled ro so).eventActivities)
      with h | ⟨l, x, h⟩
    · exact h
    · exfalso
      have hx : x ∈ (classify payload enabled ro so).eventActivities := by
        rw [h, List.concat_eq_append]; exact List.mem_concat_self l x
      rcases classify_events_master hx with ⟨rs, parsed, -, -, -, hie, -⟩
      rw [hs] at hie
      exact absurd hie (by decide)
  · intro hs
    rcases List.eq_nil_or_concat ((classify payload enabled ro so).classifications)
      with h | ⟨l, x, h⟩
    · exact h
    · exfalso
      have hx : x ∈ (classify payload enabled ro so).classifications := by
        rw [h, List.concat_eq_append]; exact List.mem_concat_self l x
      rcases classify_cls_master hx with ⟨rs, parsed, -, -, -, -, hic, -⟩
      rw [hs] at hic
      exact absurd hic (by decide)

theorem claim_C8_witness :
    (classify { fxRequest with scope := Scope.concept } true
      (Outcome.ok fxRootSelection) (Outcome.ok fxParsed)).eventActivities = []
    ∧ (classify { fxRequest with scope := Scope.event } true
      (Outcome.ok fxRootSelection) (Outcome.ok fxParsed)).classifications = [] :=
  ⟨(claim_C8_scope_invariant { fxRequest with scope := Scope.concept } true
      (Outcome.ok fxRootSelection) (Outcome.ok fxParsed)).1 rfl,
   (claim_C8_scope_invariant { fxRequest with scope := Scope.event } true
      (Outcome.ok fxRootSelection) (Outcome.ok fxParsed)).2 rfl⟩

/-- C3: Per-item root selection rule — candidates outside the allowed set are
discarded; the selection is empty exactly when no valid candidate remains
(hence non-empty whenever one exists, even if every confidence is below
0.4); when the 0.4 threshold keeps at least one candidate, every selected
candidate meets it; the result is sorted by descending confidence and has at
most 5 entries. -/
theorem claim_C3_root_selection (candidates : List RootCandidate)
    (allowedIds : List String) :
    (∀ c ∈ selectRoots candidates allowedIds,
      allowedIds.contains c.oClassId = true) ∧
    (selectRoots candidates allowedIds = [] ↔
      candidates.filter (fun c => allowedIds.contains c.oClassId) = []) ∧
    (((candidates.filter (fun c => allowedIds.contains c.oClassId)).filter
        (fun c => mkRat 4 10 ≤ c.confidence)) ≠ [] →
      ∀ c ∈ selectRoots candidates allowedIds, mkRat 4 10 ≤ c.confidence) ∧
    List.Sorted confGE (selectRoots candidates allowedIds) ∧
    (selectRoots candidates allowedIds).length ≤ 5 :=
  ⟨fun _ hc => selectRoots_allowed hc, selectRoots_empty_iff _ _,
    fun hsel => selectRoots_threshold hsel, selectRoots_sorted _ _,
    selectRoots_length_le _ _⟩

theorem claim_C3_witness :
    selectRoots fxCands ["E_Place", "A_Activity"] ≠ [] ∧
    (∀ c ∈ selectRoots fxCands ["E_Place", "A_Activity"],
      (["E_Place", "A_Activity"] : List String).contains c.oClassId = true) ∧
    (selectRoots fxCands ["E_Place", "A_Activity"]).length ≤ 5 := by
  refine ⟨?_, (claim_C3_root_selection fxCands ["E_Place", "A_Activity"]).1,
    (claim_C3_root_selection fxCands ["E_Place", "A_Activity"]).2.2.2.2⟩
  intro h0
  have h := (claim_C3_root_selection fxCands ["E_Place", "A_Activity"]).2.1.mp h0
  revert h
  decide

/-- C4: Leaf-set expansion contract — collect_leaves rootId returns exactly
the nodes reachable from rootId along child edges that have no outgoing
child edges (the visited set makes cycles merely truncate traversal); a root
with no children yields its own id as the sole leaf candidate; and the
resulting set depends only on the snapshot's edge set: permuting the edge
declaration order (and, the function being pure, repeating the call) yields
an identical set. -/
theorem claim_C4_leaf_expansion (edges : List SnapshotEdge) (rootId : String) :
    (∀ n, n ∈ collect_leaves edges rootId ↔
      Reaches edges rootId n ∧ childrenOf edges n = []) ∧
    (childrenOf edges rootId = [] → collect_leaves edges rootId = [rootId]) ∧
    (∀ edges', edges.Perm edges' →
      ∀ n, (n ∈ collect_leaves edges rootId ↔ n ∈ collect_leaves edges' rootId)) :=
  ⟨mem_collect_leaves edges rootId, fun h => collect_leaves_childless h,
    fun _ hp n => collect_leaves_perm hp rootId n⟩

theorem claim_C4_witness :
    collect_leaves fxSnapshot.subclassEdges "E_Restaurant" = ["E_Restaurant"] ∧
    (∀ n, n ∈ collect_leaves fxSnapshot.subclassEdges "E_Place" ↔
      n ∈ collect_leaves fxSnapshot.subclassEdges.reverse "E_Place") :=
  ⟨(claim_C4_leaf_expansion fxSnapshot.subclassEdges "E_Restaurant").2.1 (by decide),
   (claim_C4_leaf_expansion fxSnapshot.subclassEdges "E_Place").2.2
     fxSnapshot.subclassEdges.reverse (List.reverse_perm _).symm⟩

/-- C1: Leaf-membership invariant — every classification surviving in the
final response has an oClassId inside that concept's candidate leaf set (the
union of the leaf views of its selected roots), and every surviving
event-activity's oClassId is inside the event's candidate leaf set; on the
validated path a violating record is dropped with a validation warning while
the errors list is left untouched (never escalated to a hard error). -/
theorem claim_C1_leaf_membership (payload : ClassifyRequest) (enabled : Bool)
    (rs : RootSelectionResponse) (so : Outcome ClassifyResponse) :
    (∀ c ∈ (classify payload enabled (Outcome.ok rs) so).classifications,
      c.oClassId ∈ conceptCandidateLeaves (classifyPrep payload rs).1 c.conceptKey) ∧
    (∀ e ∈ (classify payload enabled (Outcome.ok rs) so).eventActivities,
      e.oClassId ∈ eventLeafIdsOf payload.scope.includesEvent
        (classifyPrep payload rs).1) ∧
    (∀ parsed, so = Outcome.ok parsed → enabled = true →
      (getRootClasses payload).isEmpty = false →
      ¬((classifyPrep payload rs).1.concepts = []
        ∧ (classifyPrep payload rs).1.event = none) →
      (classify payload enabled (Outcome.ok rs) so).errors = parsed.errors ∧
      (∀ dropped, dropped =
          ((if payload.scope.includesConcept then parsed.classifications
            else []).filter
            (fun i => !(conceptKeep (conceptLeafMapOf (classifyPrep payload rs).1)
              i))).map
            (fun i => DroppedClassification.mk i.conceptKey i.conceptType
              i.conceptName i.oClassId) →
        dropped ≠ [] →
        Note.droppedCls "validation"
          "leaf-only: stripped classifications not in candidate leaves"
          dropped.length (dropped.take 50)
          ∈ (classify payload enabled (Outcome.ok rs) so).warnings) ∧
      (∀ droppedE, droppedE =
          ((backfillEvents payload.scope.includesEvent (resolvedEventIdOf payload)
            parsed.eventActivities).1.filter
            (fun i => !(evtKeep (eventLeafIdsOf payload.scope.includesEvent
              (classifyPrep payload rs).1) i))).map
            (fun i => DroppedEvent.mk i.eventId i.oClassId) →
        droppedE ≠ [] →
        Note.droppedEvt "validation"
          "leaf-only: stripped event activities not in candidate leaves"
          droppedE.length (droppedE.take 50)
          ∈ (classify payload enabled (Outcome.ok rs) so).warnings)) := by
  refine ⟨?_, ?_, ?_⟩
  · intro c hc
    rcases classify_cls_master hc with ⟨rs', parsed, hro, -, -, -, -, hkeep, -⟩
    injection hro with h
    subst h
    unfold conceptCandidateLeaves
    exact conceptKeep_mem hkeep
  · intro e he
    rcases classify_events_master he with ⟨rs', parsed, hro, -, -, -, -, -, hkeep, -⟩
    injection hro with h
    subst h
    exact evtKeep_mem hkeep
  · intro parsed hso hen hroots hsc
    subst hso
    subst hen
    rw [classify_validated payload rs parsed hroots hsc]
    refine ⟨validateStage2_errors _ _ _ _ _ _, ?_, ?_⟩
    · intro dropped hdef hne
      subst hdef
      apply mem_warnings_of_leafCls
      have hviol : (if payload.scope.includesConcept then parsed.classifications
          else []).filter
          (fun i => !(conceptKeep (conceptLeafMapOf (classifyPrep payload rs).1) i))
          ≠ [] := by
        intro h
        rw [h] at hne
        exact hne rfl
      rw [leafFilterCls_snd hviol]
      exact List.mem_singleton.mpr rfl
    · intro droppedE hdef hne
      subst hdef
      apply mem_warnings_of_leafEvt
      have hviol : (backfillEvents payload.scope.includesEvent
          (resolvedEventIdOf payload) parsed.eventActivities).1.filter
          (fun i => !(evtKeep (eventLeafIdsOf payload.scope.includesEvent
            (classifyPrep payload rs).1) i)) ≠ [] := by
        intro h
        rw [h] at hne
        exact hne rfl
      rw [leafFilterEvt_snd hviol]
      exact List.mem_singleton.mpr rfl

theorem claim_C1_witness :
    (fxKept.oClassId
      ∈ conceptCandidateLeaves (classifyPrep fxRequest fxRootSelection).1
        "Place::X") ∧
    (∃ cnt sample, Note.droppedCls "validation"
      "leaf-only: stripped classifications not in candidate leaves" cnt sample
      ∈ (classify fxRequest true (Outcome.ok fxRootSelection)
          (Outcome.ok fxParsedBad)).warnings) := by
  have h := claim_C1_leaf_membership fxRequest true fxRootSelection
    (Outcome.ok fxParsedBad)
  constructor
  · exact h.1 fxKept (by decide)
  · exact ⟨_, _, (h.2.2 fxParsedBad rfl rfl (by decide) (by decide)).2.1 _ rfl
      (by decide)⟩

/-- C2: Mode invariant — under existing_only the final oClassesToAdd and
subclassEdgesToAdd are empty whatever the oracle returned (with a warning
when something was stripped), and every surviving classification or
event-activity has an oClassId among the snapshot's class ids; a violating
record is dropped with a warning carrying a diagnostic sample that is the
first 50 dropped items (hence at most 50). -/
theorem claim_C2_mode_invariant (payload : ClassifyRequest) (enabled : Bool)
    (ro : Outcome RootSelectionResponse) (so : Outcome ClassifyResponse)
    (hmode : payload.mode = Mode.existing_only) :
    (classify payload enabled ro so).oClassesToAdd = [] ∧
    (classify payload enabled ro so).subclassEdgesToAdd = [] ∧
    (∀ c ∈ (classify payload enabled ro so).classifications,
      c.oClassId ∈ payload.snapshot.oClasses.map (fun cl => cl.id)) ∧
    (∀ e ∈ (classify payload enabled ro so).eventActivities,
      e.oClassId ∈ payload.snapshot.oClasses.map (fun cl => cl.id)) ∧
    (∀ rs parsed, ro = Outcome.ok rs → so = Outcome.ok parsed → enabled = true →
      (getRootClasses payload).isEmpty = false →
      ¬((classifyPrep payload rs).1.concepts = []
        ∧ (classifyPrep payload rs).1.event = none) →
      ((parsed.oClassesToAdd ≠ [] ∨ parsed.subclassEdgesToAdd ≠ []) →
        Note.plain "validation" "existing_only mode: stripped class/edge additions"
          ∈ (classify payload enabled ro so).warnings) ∧
      (∀ dropped, dropped =
          ((leafFilterCls (conceptLeafMapOf (classifyPrep payload rs).1)
            (if payload.scope.includesConcept then parsed.classifications
              else [])).1.filter
            (fun i => !((snapshotAllowedIds payload.snapshot).contains
              i.oClassId))).map
            (fun i => DroppedClassification.mk i.conceptKey i.conceptType
              i.conceptName i.oClassId) →
        dropped ≠ [] →
        Note.droppedCls "validation"
          "existing_only mode: stripped classifications not in snapshot"
          dropped.length (dropped.take 50)
          ∈ (classify payload enabled ro so).warnings ∧
        (dropped.take 50).length ≤ 50) ∧
      (∀ droppedE, droppedE =
          ((leafFilterEvt (eventLeafIdsOf payload.scope.includesEvent
              (classifyPrep payload rs).1)
            (backfillEvents payload.scope.includesEvent
              (resolvedEventIdOf payload) parsed.eventActivities).1).1.filter
            (fun i => !((snapshotAllowedIds payload.snapshot).contains
              i.oClassId))).map
            (fun i => DroppedEvent.mk i.eventId i.oClassId) →
        droppedE ≠ [] →
        Note.droppedEvt "validation"
          "existing_only mode: stripped event activities not in snapshot"
          droppedE.length (droppedE.take 50)
          ∈ (classify payload enabled ro so).warnings ∧
        (droppedE.take 50).length ≤ 50)) := by
  refine ⟨?_, ?_, ?_, ?_, ?_⟩
  · exact (classify_adds_nil hmode).1
  · exact (classify_adds_nil hmode).2
  · intro c hc
    rcases classify_cls_master hc with ⟨rs', parsed, -, -, -, -, -, -, hmm⟩
    have := hmm hmode
    exact snapshotAllowedIds_sub (by simpa using this)
  · intro e he
    rcases classify_events_master he with ⟨rs', parsed, -, -, -, -, -, -, -, hmm⟩
    have := hmm hmode
    exact snapshotAllowedIds_sub (by simpa using this)
  · intro rs parsed hro hso hen hroots hsc
    subst hro
    subst hso
    subst hen
    rw [classify_validated payload rs parsed hroots hsc]
    refine ⟨fun hadds => mem_warnings_of_strip hmode hadds, ?_, ?_⟩
    · intro dropped hdef hne
      subst hdef
      refine ⟨?_, List.length_take_le _ _⟩
      apply mem_warnings_of_modeCls hmode
      have hviol : (leafFilterCls (conceptLeafMapOf (classifyPrep payload rs).1)
          (if payload.scope.includesConcept then parsed.classifications
            else [])).1.filter
          (fun i => !((snapshotAllowedIds payload.snapshot).contains i.oClassId))
          ≠ [] := by
        intro h
        rw [h] at hne
        exact hne rfl
      rw [modeFilterCls_snd hviol]
      exact List.mem_singleton.mpr rfl
    · intro droppedE hdef hne
      subst hdef
      refine ⟨?_, List.length_take_le _ _⟩
      apply mem_warnings_of_modeEvt hmode
      have hviol : (leafFilterEvt (eventLeafIdsOf payload.scope.includesEvent
            (classifyPrep payload rs).1)
          (backfillEvents payload.scope.includesEvent (resolvedEventIdOf payload)
            parsed.eventActivities).1).1.filter
          (fun i => !((snapshotAllowedIds payload.snapshot).contains i.oClassId))
          ≠ [] := by
        intro h
        rw [h] at hne
        exact hne rfl
      rw [modeFilterEvt_snd hviol]
      exact List.mem_singleton.mpr rfl

theorem claim_C2_witness :
    (classify fxRequest true (Outcome.ok fxRootSelection)
      (Outcome.ok fxParsedAdds)).oClassesToAdd = [] ∧
    (classify fxRequest true (Outcome.ok fxRootSelection)
      (Outcome.ok fxParsedAdds)).subclassEdgesToAdd = [] ∧
    Note.plain "validation" "existing_only mode: stripped class/edge additions"
      ∈ (classify fxRequest true (Outcome.ok fxRootSelection)
          (Outcome.ok fxParsedAdds)).warnings := by
  have h := claim_C2_mode_invariant fxRequest true (Outcome.ok fxRootSelection)
    (Outcome.ok fxParsedAdds) rfl
  refine ⟨h.1, h.2.1, ?_⟩
  exact (h.2.2.2.2 fxRootSelection fxParsedAdds rfl rfl rfl (by decide)
    (by decide)).1 (Or.inl (by decide))

/-- C5 as stated is false: the final ok flag also goes false when the stage-2
oracle response itself carried ok = false, even with an empty errors list.
Here the oracle returns ok = false and no errors; the final response has
ok = false while its errors list is empty. -/
theorem claim_C5_counterexample :
    (classify fxRequest true (Outcome.ok fxRootSelection)
      (Outcome.ok fxParsedNotOk)).ok = false ∧
    (classify fxRequest true (Outcome.ok fxRootSelection)
      (Outcome.ok fxParsedNotOk)).errors = [] := by decide

/-- C5 amended: a non-empty errors list always forces ok = false; ok = false
implies either a non-empty errors list or that the stage-2 oracle response
itself carried ok = false (the validator never flips ok on warnings alone);
and the empty stage-2 short-circuit returns ok = true with no errors. -/
theorem claim_C5_result_status (payload : ClassifyRequest) (enabled : Bool)
    (ro : Outcome RootSelectionResponse) (so : Outcome ClassifyResponse) :
    ((classify payload enabled ro so).errors ≠ [] →
      (classify payload enabled ro so).ok = false) ∧
    ((classify payload enabled ro so).ok = false →
      (classify payload enabled ro so).errors ≠ [] ∨
      ∃ parsed, so = Outcome.ok parsed ∧ parsed.ok = false) ∧
    (∀ rs, ro = Outcome.ok rs → enabled = true →
      (getRootClasses payload).isEmpty = false →
      ((classifyPrep payload rs).1.concepts = []
        ∧ (classifyPrep payload rs).1.event = none) →
      (classify payload enabled ro so).ok = true ∧
      (classify payload enabled ro so).errors = []) := by
  cases enabled with
  | false =>
    rw [classify_disabled]
    refine ⟨fun _ => rfl, fun _ => Or.inl (by simp), ?_⟩
    intro rs hro hen
    exact absurd hen (by simp)
  | true =>
    cases hroots : (getRootClasses payload).isEmpty with
    | true =>
      rw [classify_no_roots payload ro so hroots]
      refine ⟨fun _ => rfl, fun _ => Or.inl (by simp), ?_⟩
      intro rs hro hen hroots'
      exact absurd hroots' (by simp)
    | false =>
      cases ro with
      | failure msg =>
        rw [classify_root_failure payload msg so hroots]
        refine ⟨fun _ => rfl, fun _ => Or.inl (by simp), ?_⟩
        intro rs hro
        exact absurd hro (by simp)
      | ok rs0 =>
        by_cases hsc : ((classifyPrep payload rs0).1.concepts = []
            ∧ (classifyPrep payload rs0).1.event = none)
        · rw [classify_short_circuit payload rs0 so hroots hsc]
          refine ⟨fun h => absurd rfl h, fun h => absurd h (by simp), ?_⟩
          intro rs hro hen hroots' hsc'
          exact ⟨rfl, rfl⟩
        · cases so with
          | failure msg =>
            rw [classify_stage2_failure payload rs0 msg hroots hsc]
            refine ⟨fun _ => rfl, fun _ => Or.inl (by simp), ?_⟩
            intro rs hro hen hroots' hsc'
            injection hro with h
            subst h
            exact absurd hsc' hsc
          | ok parsed =>
            rw [classify_validated payload rs0 parsed hroots hsc,
              validateStage2_ok, validateStage2_errors]
            refine ⟨fun h => if_pos h, ?_, ?_⟩
            · intro hok
              by_cases he : parsed.errors ≠ []
              · exact Or.inl he
              · rw [if_neg he] at hok
                exact Or.inr ⟨parsed, rfl, hok⟩
            · intro rs hro hen hroots' hsc'
              injection hro with h
              subst h
              exact absurd hsc' hsc

theorem claim_C5_witness :
    (classify fxRequest true (Outcome.ok fxRootSelection)
      (Outcome.ok fxParsedErr)).ok = false :=
  (claim_C5_result_status fxRequest true (Outcome.ok fxRootSelection)
    (Outcome.ok fxParsedErr)).1 (by decide)

/-- C7: Identity back-fill — every surviving event-activity record carries an
eventId, namely the identity resolved as: the request's eventId when truthy,
else the eventTitle when truthy, else the first available concept
sourceText (the inferred title); when nothing resolves, all event-activity
output is dropped, with a warning on the validated path whenever the oracle
had returned any. -/
theorem claim_C7_identity_backfill (payload : ClassifyRequest) (enabled : Bool)
    (ro : Outcome RootSelectionResponse) (so : Outcome ClassifyResponse) :
    (∀ e ∈ (classify payload enabled ro so).eventActivities,
      ∃ v, resolvedEventIdOf payload = some v ∧ v ≠ "" ∧ e.eventId = some v) ∧
    (∀ v, pyStr payload.eventId = some v → resolvedEventIdOf payload = some v) ∧
    (pyStr payload.eventId = none → ∀ v, pyStr payload.eventTitle = some v →
      resolvedEventIdOf payload = some v) ∧
    (pyStr payload.eventId = none → pyStr payload.eventTitle = none →
      resolvedEventIdOf payload = inferEventTitle payload) ∧
    ((pyStr (resolvedEventIdOf payload)).isNone = true →
      (classify payload enabled ro so).eventActivities = [] ∧
      (∀ rs parsed, ro = Outcome.ok rs → so = Outcome.ok parsed → enabled = true →
        payload.scope.includesEvent = true →
        (getRootClasses payload).isEmpty = false →
        ¬((classifyPrep payload rs).1.concepts = []
          ∧ (classifyPrep payload rs).1.event = none) →
        parsed.eventActivities ≠ [] →
        Note.plain "validation" "event context missing; ignoring eventActivities"
          ∈ (classify payload enabled ro so).warnings)) := by
  refine ⟨?_, ?_, ?_, ?_, ?_⟩
  · intro e he
    rcases classify_events_master he with ⟨rs, parsed, -, -, -, -, hsome, ⟨j, -, hj⟩, -⟩
    rcases pyStr_isSome hsome with ⟨v, hv, hne⟩
    refine ⟨v, hv, hne, ?_⟩
    rw [hj, hv]
  · intro v hv
    unfold resolvedEventIdOf pyOr
    rw [hv]
  · intro h1 v hv
    unfold resolvedEventIdOf pyOr
    rw [h1, hv]
  · intro h1 h2
    unfold resolvedEventIdOf pyOr
    rw [h1, h2]
  · intro hres
    constructor
    · rcases List.eq_nil_or_concat ((classify payload enabled ro so).eventActivities)
        with h | ⟨l, x, h⟩
      · exact h
      · exfalso
        have hx : x ∈ (classify payload enabled ro so).eventActivities := by
          rw [h, List.concat_eq_append]
          exact List.mem_concat_self l x
        rcases classify_events_master hx with ⟨rs, parsed, -, -, -, -, hsome, -⟩
        rw [Option.isNone_iff_eq_none.mp hres] at hsome
        exact absurd hsome (by simp [Option.isSome])
    · intro rs parsed hro hso hen hie hroots hsc heas
      subst hro
      subst hso
      subst hen
      rw [classify_validated payload rs parsed hroots hsc]
      apply mem_warnings_of_backfill
      rw [backfillEvents_snd_of_drop hie hres heas]
      exact List.mem_singleton.mpr rfl

theorem claim_C7_witness :
    resolvedEventIdOf fxRequest = some "evt-1" ∧
    (∃ v, resolvedEventIdOf fxRequest = some v ∧ v ≠ "" ∧
      (fxEvtAct.eventId = some "wrong-id" ∧
        ({ fxEvtAct with eventId := some "evt-1"
          } : EventActivityClassification).eventId = some v)) := by
  have h := claim_C7_identity_backfill fxRequest true (Outcome.ok fxRootSelection)
    (Outcome.ok fxParsed)
  refine ⟨h.2.1 "evt-1" rfl, ?_⟩
  rcases h.1 { fxEvtAct with eventId := some "evt-1" } (by decide)
    with ⟨v, hv, hne, hev⟩
  exact ⟨v, hv, hne, rfl, hev⟩

/-- C9 (implicit): when scope includes the event and an identity resolves,
the resolved value overwrites the eventId of every oracle-returned
event-activity record before any filtering — an oracle-supplied eventId is
replaced even when present — so every surviving record carries the same
eventId, equal to the resolved one. -/
theorem claim_C9_eventid_overwrite (payload : ClassifyRequest) (enabled : Bool)
    (ro : Outcome RootSelectionResponse) (so : Outcome ClassifyResponse)
    (v : String) (hres : resolvedEventIdOf payload = some v) :
    ∀ e ∈ (classify payload enabled ro so).eventActivities,
      e.eventId = some v ∧
      ∃ parsed j, so = Outcome.ok parsed ∧ j ∈ parsed.eventActivities ∧
        e = { j with eventId := some v } := by
  intro e he
  rcases classify_events_master he with ⟨rs, parsed, -, hso, -, -, -, ⟨j, hjmem, hj⟩, -⟩
  rw [hres] at hj
  exact ⟨by rw [hj], parsed, j, hso, hjmem, hj⟩

theorem claim_C9_witness :
    ({ fxEvtAct with eventId := some "evt-1"
      } : EventActivityClassification).eventId = some "evt-1" ∧
    fxEvtAct.eventId = some "wrong-id" ∧
    ∃ parsed j, (Outcome.ok fxParsed : Outcome ClassifyResponse) = Outcome.ok parsed
      ∧ j ∈ parsed.eventActivities
      ∧ ({ fxEvtAct with eventId := some "evt-1" } : EventActivityClassification)
        = { j with eventId := some "evt-1" } := by
  have h := claim_C9_eventid_overwrite fxRequest true (Outcome.ok fxRootSelection)
    (Outcome.ok fxParsed) "evt-1" (by decide)
    { fxEvtAct with eventId := some "evt-1" } (by decide)
  exact ⟨h.1, rfl, h.2⟩

/-! ### Association-list lemmas for the rootSubtrees dict -/

theorem assocFind_eq_none_iff {α : Type} {k : String} {l : List (String × α)} :
    assocFind k l = none ↔ ∀ p ∈ l, p.1 ≠ k := by
  induction l with
  | nil => simp [assocFind]
  | cons p rest ih =>
    rcases p with ⟨k', v'⟩
    rw [assocFind]
    by_cases hk : k' = k
    · subst hk
      simp
    · rw [if_neg hk, ih]
      constructor
      · intro h q hq
        rcases List.mem_cons.mp hq with rfl | hq'
        · exact hk
        · exact h q hq'
      · intro h q hq
        exact h q (List.mem_cons_of_mem _ hq)

theorem dictGet_eq_none_iff {α : Type} {m : List (String × α)} {k : String} :
    dictGet m k = none ↔ ∀ p ∈ m, p.1 ≠ k := by
  unfold dictGet
  rw [assocFind_eq_none_iff]
  constructor
  · intro h p hp
    exact h p (List.mem_reverse.mpr hp)
  · intro h p hp
    exact h p (List.mem_reverse.mp hp)

theorem assocFind_of_nodup_mem {α : Type} {l : List (String × α)} {k : String}
    {v : α} (hnodup : (l.map Prod.fst).Nodup) (hmem : (k, v) ∈ l) :
    assocFind k l = some v := by
  induction l with
  | nil => exact absurd hmem (List.not_mem_nil _)
  | cons p rest ih =>
    rcases p with ⟨k', v'⟩
    rw [List.map_cons, List.nodup_cons] at hnodup
    rw [assocFind]
    rcases List.mem_cons.mp hmem with heq | hmem'
    · rcases Prod.mk.injEq .. ▸ heq with ⟨h1, h2⟩
      subst h1
      subst h2
      rw [if_pos rfl]
    · by_cases hk : k' = k
      · subst hk
        exfalso
        exact hnodup.1 (List.mem_map.mpr ⟨(k', v), hmem', rfl⟩)
      · rw [if_neg hk]
        exact ih hnodup.2 hmem'

theorem dictGet_of_nodup_mem {α : Type} {m : List (String × α)} {k : String}
    {v : α} (hnodup : (m.map Prod.fst).Nodup) (hmem : (k, v) ∈ m) :
    dictGet m k = some v := by
  unfold dictGet
  refine assocFind_of_nodup_mem ?_ (List.mem_reverse.mpr hmem)
  rw [List.map_reverse]
  exact List.nodup_reverse.mpr hnodup

theorem rootSubtreesOf_none {classes : List SnapshotOClass}
    {edges : List SnapshotEdge} {rootsFor : List String} {r : String}
    (hempty : collect_leaves edges r = []) :
    dictGet (rootSubtreesOf classes edges rootsFor) r = none := by
  rw [dictGet_eq_none_iff]
  intro p hp
  unfold rootSubtreesOf at hp
  rcases List.mem_map.mp hp with ⟨r', hr', rfl⟩
  have hne := (List.mem_filter.mp hr').2
  intro hcontra
  simp only at hcontra
  subst hcontra
  rw [hempty] at hne
  simp at hne

theorem rootSubtreesOf_some {classes : List SnapshotOClass}
    {edges : List SnapshotEdge} {rootsFor : List String} {r : String}
    (hnodup : rootsFor.Nodup) (hr : r ∈ rootsFor)
    (hne : collect_leaves edges r ≠ []) :
    dictGet (rootSubtreesOf classes edges rootsFor) r =
      some (leafEntries classes edges r) := by
  apply dictGet_of_nodup_mem
  · unfold rootSubtreesOf
    rw [List.map_map]
    have : (Prod.fst ∘ fun r => (r, leafEntries classes edges r)) = id := rfl
    rw [this, List.map_id]
    exact hnodup.filter _
  · unfold rootSubtreesOf
    exact List.mem_map.mpr
      ⟨r, List.mem_filter.mpr ⟨hr, by simp [hne]⟩, rfl⟩

theorem subtreeNotesOf_mem {edges : List SnapshotEdge} {rootsFor : List String}
    {r : String} (hr : r ∈ rootsFor) (hempty : collect_leaves edges r = []) :
    Note.rootNote "validation" "no leaf candidates for root" r
      ∈ subtreeNotesOf edges rootsFor := by
  unfold subtreeNotesOf
  exact List.mem_map.mpr ⟨r, List.mem_filter.mpr ⟨hr, by simp [hempty]⟩, rfl⟩

theorem subtreeNotesOf_not_mem {edges : List SnapshotEdge}
    {rootsFor : List String} {r : String}
    (hne : collect_leaves edges r ≠ []) :
    Note.rootNote "validation" "no leaf candidates for root" r
      ∉ subtreeNotesOf edges rootsFor := by
  intro h
  unfold subtreeNotesOf at h
  rcases List.mem_map.mp h with ⟨r', hr', heq⟩
  have : r' = r := by injection heq
  subst this
  have := (List.mem_filter.mp hr').2
  simp only [decide_eq_true_eq] at this
  exact hne this

theorem eventSkipNotes_shape {payload : ClassifyRequest}
    {eventRoots : List RootCandidate} {activityRoots : List SnapshotOClass}
    {ie : Bool} {x : Note}
    (hx : x ∈ eventSkipNotesOf payload eventRoots activityRoots ie) :
    ∃ s m, x = Note.plain s m := by
  unfold eventSkipNotesOf at hx
  by_cases h1 : ie = true ∧ eventRoots = []
  · rw [if_pos h1] at hx
    by_cases h2 : (pyStr (pyOr payload.eventTitle payload.eventNormalizedTextEn)).isNone
    · rw [if_pos h2] at hx
      rcases List.mem_singleton.mp hx with rfl
      exact ⟨_, _, rfl⟩
    · rw [if_neg h2] at hx
      by_cases h3 : activityRoots.isEmpty
      · rw [if_pos h3] at hx
        rcases List.mem_singleton.mp hx with rfl
        exact ⟨_, _, rfl⟩
      · rw [if_neg h3] at hx
        rcases List.mem_singleton.mp hx with rfl
        exact ⟨_, _, rfl⟩
  · rw [if_neg h1] at hx
    exact absurd hx (List.not_mem_nil x)

theorem conceptNotes_shape {payload : ClassifyRequest}
    {cm : List (String × List RootCandidate)} {ic : Bool} {x : Note}
    (hx : x ∈ conceptNotesOf payload cm ic) :
    ∃ s m k, x = Note.conceptNote s m k := by
  unfold conceptNotesOf at hx
  by_cases h : ic = true
  · rw [if_pos h] at hx
    rcases List.mem_map.mp hx with ⟨c, -, rfl⟩
    exact ⟨_, _, _, rfl⟩
  · rw [if_neg h] at hx
    exact absurd hx (List.not_mem_nil x)

theorem buildStage2Payload_snd (payload : ClassifyRequest)
    (cm : List (String × List RootCandidate)) (ev : List RootCandidate)
    (act : List SnapshotOClass) (ic ie : Bool) :
    (buildStage2Payload payload cm ev act ic ie).2 =
      conceptNotesOf payload cm ic ++ eventSkipNotesOf payload ev act ie
        ++ subtreeNotesOf payload.snapshot.subclassEdges
          (rootsForSubtrees ev cm (conceptItemsOf payload cm ic)) := rfl

theorem buildStage2Payload_subtrees (payload : ClassifyRequest)
    (cm : List (String × List RootCandidate)) (ev : List RootCandidate)
    (act : List SnapshotOClass) (ic ie : Bool) :
    (buildStage2Payload payload cm ev act ic ie).1.rootSubtrees =
      rootSubtreesOf payload.snapshot.oClasses payload.snapshot.subclassEdges
        (rootsForSubtrees ev cm (conceptItemsOf payload cm ic)) := rfl

/-- C6 as stated is false: a root whose expansion produces zero leaf VIEW
entries (here because its sole leaf id is absent from the snapshot's class
index) is included in the stage-2 query with an empty leaf list and no
warning; the "no leaf candidates for root" warning is tied to the traversal
producing zero leaf ids, not to the entry list being empty. -/
theorem claim_C6_counterexample :
    dictGet (buildStage2Payload fxRequestMissingLeaf fxMapEPlace [] [] true
      false).1.rootSubtrees "E_Place" = some [] ∧
    Note.rootNote "validation" "no leaf candidates for root" "E_Place"
      ∉ (buildStage2Payload fxRequestMissingLeaf fxMapEPlace [] [] true
          false).2 := by decide

/-- C6 amended: for every root implicated by root selection, when the
traversal from it yields zero leaf IDS (possible only when every reachable
node has children, i.e. a cyclic subtree) the pipeline records the hard
validation warning "no leaf candidates for root" and excludes that root from
the stage-2 query; when the traversal yields at least one leaf id the root
is included (with its — possibly empty — leaf view list) and no such warning
is recorded for it. -/
theorem claim_C6_no_leaf_warning (payload : ClassifyRequest)
    (cm : List (String × List RootCandidate)) (ev : List RootCandidate)
    (act : List SnapshotOClass) (ic ie : Bool) :
    ∀ r ∈ rootsForSubtrees ev cm (conceptItemsOf payload cm ic),
      (collect_leaves payload.snapshot.subclassEdges r = [] ↔
        ∀ n, Reaches payload.snapshot.subclassEdges r n →
          childrenOf payload.snapshot.subclassEdges n ≠ []) ∧
      (collect_leaves payload.snapshot.subclassEdges r = [] →
        Note.rootNote "validation" "no leaf candidates for root" r
          ∈ (buildStage2Payload payload cm ev act ic ie).2 ∧
        dictGet (buildStage2Payload payload cm ev act ic ie).1.rootSubtrees r
          = none) ∧
      (collect_leaves payload.snapshot.subclassEdges r ≠ [] →
        dictGet (buildStage2Payload payload cm ev act ic ie).1.rootSubtrees r
          = some (leafEntries payload.snapshot.oClasses
              payload.snapshot.subclassEdges r) ∧
        Note.rootNote "validation" "no leaf candidates for root" r
          ∉ (buildStage2Payload payload cm ev act ic ie).2) := by
  intro r hr
  refine ⟨?_, ?_, ?_⟩
  · rw [List.eq_nil_iff_forall_not_mem]
    constructor
    · intro h n hreach hch
      exact h n ((mem_collect_leaves _ _ _).mpr ⟨hreach, hch⟩)
    · intro h n hn
      rcases (mem_collect_leaves _ _ _).mp hn with ⟨hreach, hch⟩
      exact h n hreach hch
  · intro hempty
    constructor
    · rw [buildStage2Payload_snd]
      exact List.mem_append.mpr (Or.inr (subtreeNotesOf_mem hr hempty))
    · rw [buildStage2Payload_subtrees]
      exact rootSubtreesOf_none hempty
  · intro hne
    constructor
    · rw [buildStage2Payload_subtrees]
      exact rootSubtreesOf_some (List.nodup_dedup _) hr hne
    · rw [buildStage2Payload_snd]
      intro hmem
      rcases List.mem_append.mp hmem with hmem' | hmem'
      · rcases List.mem_append.mp hmem' with hmem'' | hmem''
        · rcases conceptNotes_shape hmem'' with ⟨s, m, k, heq⟩
          exact absurd heq (by simp)
        · rcases eventSkipNotes_shape hmem'' with ⟨s, m, heq⟩
          exact absurd heq (by simp)
      · exact subtreeNotesOf_not_mem hne hmem'

theorem claim_C6_witness :
    Note.rootNote "validation" "no leaf candidates for root" "R"
      ∈ (buildStage2Payload fxRequestCycle fxMapR [] [] true false).2 ∧
    dictGet (buildStage2Payload fxRequestCycle fxMapR [] []
      true false).1.rootSubtrees "R" = none :=
  (claim_C6_no_leaf_warning fxRequestCycle fxMapR [] [] true false "R"
    (by decide)).2.1 (by decide)

/-! ### Facet partition lemmas (for C10) -/

theorem mem_conceptRootsOf {roots : List SnapshotOClass} {ic : Bool}
    {cl : SnapshotOClass} (h : cl ∈ conceptRootsOf roots ic) :
    cl ∈ roots ∧ cl.facet = some "Entity" := by
  unfold conceptRootsOf at h
  by_cases hic : ic = true
  · rw [if_pos hic] at h
    rcases List.mem_filter.mp h with ⟨h1, h2⟩
    exact ⟨h1, by simpa using h2⟩
  · rw [if_neg hic] at h
    exact absurd h (List.not_mem_nil cl)

theorem mem_activityRootsOf {roots : List SnapshotOClass} {ie : Bool}
    {cl : SnapshotOClass} (h : cl ∈ activityRootsOf roots ie) :
    cl ∈ roots ∧ cl.facet = some "Activity" := by
  unfold activityRootsOf at h
  by_cases hie : ie = true
  · rw [if_pos hie] at h
    rcases List.mem_filter.mp h with ⟨h1, h2⟩
    exact ⟨h1, by simpa using h2⟩
  · rw [if_neg hie] at h
    exact absurd h (List.not_mem_nil cl)

theorem conceptLeaf_unpack {s2 : Stage2Payload} {i : Classification}
    (h : conceptKeep (conceptLeafMapOf s2) i = true) :
    ∃ item ∈ s2.concepts, ∃ rootId ∈ item.rootCandidates,
      i.oClassId ∈ rootLeafIds s2 rootId := by
  unfold conceptKeep at h
  cases hd : dictGet (conceptLeafMapOf s2) i.conceptKey with
  | none => rw [hd] at h; simp at h
  | some allowed =>
    rw [hd] at h
    have hmem := dictGet_mem hd
    unfold conceptLeafMapOf at hmem
    rcases List.mem_map.mp hmem with ⟨item, hitem, heq⟩
    have hall : allowed = (item.rootCandidates.map (rootLeafIds s2)).flatten := by
      have := congrArg Prod.snd heq
      simpa using this.symm
    have hoc : i.oClassId ∈ allowed := by simpa using h
    rw [hall] at hoc
    rcases List.mem_flatten.mp hoc with ⟨l, hl, hocl⟩
    rcases List.mem_map.mp hl with ⟨rootId, hrootId, rfl⟩
    exact ⟨item, hitem, rootId, hrootId, hocl⟩

theorem eventLeafIds_unpack {ie : Bool} {s2 : Stage2Payload} {x : String}
    (h : x ∈ eventLeafIdsOf ie s2) :
    ∃ ev, s2.event = some ev ∧
      ∃ rootId ∈ ev.rootCandidates, x ∈ rootLeafIds s2 rootId := by
  unfold eventLeafIdsOf at h
  by_cases hie : ie = true
  · rw [if_pos hie] at h
    cases hev : s2.event with
    | none => rw [hev] at h; exact absurd h (List.not_mem_nil x)
    | some ev =>
      rw [hev] at h
      rcases List.mem_flatten.mp h with ⟨l, hl, hx⟩
      rcases List.mem_map.mp hl with ⟨rootId, hrootId, rfl⟩
      exact ⟨ev, rfl, rootId, hrootId, hx⟩
  · rw [if_neg hie] at h
    exact absurd h (List.not_mem_nil x)

theorem conceptItems_root_from_map {payload : ClassifyRequest}
    {cm : List (String × List RootCandidate)} {ic : Bool}
    {item : Stage2Concept} {rootId : String}
    (hitem : item ∈ conceptItemsOf payload cm ic)
    (hroot : rootId ∈ item.rootCandidates) :
    ∃ key v r, dictGet cm key = some v ∧ r ∈ v ∧ rootId = r.oClassId := by
  unfold conceptItemsOf at hitem
  by_cases hic : ic = true
  · rw [if_pos hic] at hitem
    rcases List.mem_map.mp hitem with ⟨sample, hsample, rfl⟩
    simp only at hroot
    rcases List.mem_map.mp hroot with ⟨r, hrv, rfl⟩
    unfold dictGetD at hrv
    cases hd : dictGet cm sample.conceptKey with
    | none => rw [hd] at hrv; exact absurd hrv (List.not_mem_nil r)
    | some v =>
      rw [hd] at hrv
      exact ⟨sample.conceptKey, v, r, hd, hrv, rfl⟩
  · rw [if_neg hic] at hitem
    exact absurd hitem (List.not_mem_nil item)

theorem conceptRootMap_sel {rs : RootSelectionResponse} {ids : List String}
    {ic : Bool} {key : String} {v : List RootCandidate}
    (h : dictGet (conceptRootMapOf rs ids ic) key = some v) :
    ∃ entry : RootSelection, v = selectRoots entry.roots ids := by
  have hmem := dictGet_mem h
  unfold conceptRootMapOf at hmem
  by_cases hic : ic = true
  · rw [if_pos hic] at hmem
    rcases List.mem_map.mp hmem with ⟨entry, -, heq⟩
    refine ⟨entry, ?_⟩
    have := congrArg Prod.snd heq
    simpa using this.symm
  · rw [if_neg hic] at hmem
    exact absurd hmem (List.not_mem_nil _)

theorem conceptRoot_entity {payload : ClassifyRequest}
    {rs : RootSelectionResponse} {item : Stage2Concept} {rootId : String}
    (hitem : item ∈ (classifyPrep payload rs).1.concepts)
    (hroot : rootId ∈ item.rootCandidates) :
    ∃ cl ∈ getRootClasses payload, cl.id = rootId ∧ cl.facet = some "Entity" := by
  have hconcepts : (classifyPrep payload rs).1.concepts =
      conceptItemsOf payload
        (conceptRootMapOf rs
          ((conceptRootsOf (getRootClasses payload)
            payload.scope.includesConcept).map (fun c => c.id))
          payload.scope.includesConcept)
        payload.scope.includesConcept := rfl
  rw [hconcepts] at hitem
  rcases conceptItems_root_from_map hitem hroot with ⟨key, v, r, hd, hrv, rfl⟩
  rcases conceptRootMap_sel hd with ⟨entry, rfl⟩
  have hcontains := selectRoots_allowed hrv
  have hmem : r.oClassId ∈ (conceptRootsOf (getRootClasses payload)
      payload.scope.includesConcept).map (fun c => c.id) := by
    simpa using hcontains
  rcases List.mem_map.mp hmem with ⟨cl, hcl, hid⟩
  rcases mem_conceptRootsOf hcl with ⟨hclroots, hfacet⟩
  exact ⟨cl, hclroots, hid, hfacet⟩

theorem eventPayload_root {payload : ClassifyRequest}
    {ev' : List RootCandidate} {ie : Bool} {ev : Stage2Event} {rootId : String}
    (h : eventPayloadOf payload ev' ie = some ev)
    (hroot : rootId ∈ ev.rootCandidates) :
    ∃ r ∈ ev', rootId = r.oClassId := by
  unfold eventPayloadOf at h
  by_cases hcond : ie = true ∧ ev' ≠ []
  · rw [if_pos hcond] at h
    injection h with h'
    subst h'
    simp only at hroot
    rcases List.mem_map.mp hroot with ⟨r, hr, rfl⟩
    exact ⟨r, hr, rfl⟩
  · rw [if_neg hcond] at h
    exact absurd h (by simp)

theorem eventRoots_activity {payload : ClassifyRequest}
    {rs : RootSelectionResponse} {r : RootCandidate}
    (h : r ∈ eventRootsOf rs
      ((activityRootsOf (getRootClasses payload)
        payload.scope.includesEvent).map (fun c => c.id))
      payload.scope.includesEvent) :
    ∃ cl ∈ getRootClasses payload,
      cl.id = r.oClassId ∧ cl.facet = some "Activity" := by
  unfold eventRootsOf at h
  by_cases hie : payload.scope.includesEvent = true
  · rw [if_pos hie] at h
    have hcontains := selectRoots_allowed h
    have hmem : r.oClassId ∈ (activityRootsOf (getRootClasses payload)
        payload.scope.includesEvent).map (fun c => c.id) := by
      simpa using hcontains
    rcases List.mem_map.mp hmem with ⟨cl, hcl, hid⟩
    rcases mem_activityRootsOf hcl with ⟨hclroots, hfacet⟩
    exact ⟨cl, hclroots, hid, hfacet⟩
  · rw [if_neg hie] at h
    exact absurd h (List.not_mem_nil r)

/-- C10 as stated is false on its last consequence: subtrees may overlap, so
a surviving classification can lie inside the subtree of a facet-less root.
Here X (isRoot, no facet) and R (facet Entity, isRoot) share the leaf L; the
oracle classifies the concept to L via R, the record survives, and L is a
leaf of X's subtree. -/
theorem claim_C10_counterexample :
    (∃ x ∈ fxSnapshotOverlap.oClasses, x.id = "X" ∧ x.isRoot = some true ∧
      ¬(x.facet = some "Entity") ∧ ¬(x.facet = some "Activity")) ∧
    (∃ c ∈ (classify fxRequestOverlap true (Outcome.ok fxRootSelOverlap)
        (Outcome.ok fxParsedOverlap)).classifications,
      c.oClassId ∈ collect_leaves fxSnapshotOverlap.subclassEdges "X") := by
  decide

/-- C10 amended: only snapshot root classes whose facet is exactly Entity
are offered or accepted as root candidates for concepts, and only those
whose facet is exactly Activity for the event (a root with a missing or
other facet is excluded from root selection even if flagged isRoot); hence
every surviving classification is assigned via the leaf view of some
Entity-facet root and every surviving event-activity via the leaf view of
some Activity-facet root — though such a class may also happen to lie in an
excluded root's subtree when subtrees overlap. -/
theorem claim_C10_facet_partition (payload : ClassifyRequest) (enabled : Bool)
    (ro : Outcome RootSelectionResponse) (so : Outcome ClassifyResponse) :
    (∀ rs, ro = Outcome.ok rs →
      (∀ kv ∈ conceptRootMapOf rs
          ((conceptRootsOf (getRootClasses payload)
            payload.scope.includesConcept).map (fun c => c.id))
          payload.scope.includesConcept,
        ∀ r ∈ kv.2, ∃ cl ∈ getRootClasses payload,
          cl.id = r.oClassId ∧ cl.facet = some "Entity") ∧
      (∀ r ∈ eventRootsOf rs
          ((activityRootsOf (getRootClasses payload)
            payload.scope.includesEvent).map (fun c => c.id))
          payload.scope.includesEvent,
        ∃ cl ∈ getRootClasses payload,
          cl.id = r.oClassId ∧ cl.facet = some "Activity")) ∧
    (∀ c ∈ (classify payload enabled ro so).classifications,
      ∃ rs rootId, ro = Outcome.ok rs ∧
        (∃ cl ∈ getRootClasses payload,
          cl.id = rootId ∧ cl.facet = some "Entity") ∧
        c.oClassId ∈ rootLeafIds (classifyPrep payload rs).1 rootId) ∧
    (∀ e ∈ (classify payload enabled ro so).eventActivities,
      ∃ rs rootId, ro = Outcome.ok rs ∧
        (∃ cl ∈ getRootClasses payload,
          cl.id = rootId ∧ cl.facet = some "Activity") ∧
        e.oClassId ∈ rootLeafIds (classifyPrep payload rs).1 rootId) := by
  refine ⟨?_, ?_, ?_⟩
  · intro rs hro
    constructor
    · intro kv hkv r hr
      unfold conceptRootMapOf at hkv
      by_cases hic : payload.scope.includesConcept = true
      · rw [if_pos hic] at hkv
        rcases List.mem_map.mp hkv with ⟨entry, -, rfl⟩
        simp only at hr
        have hcontains := selectRoots_allowed hr
        have hmem : r.oClassId ∈ (conceptRootsOf (getRootClasses payload)
            payload.scope.includesConcept).map (fun c => c.id) := by
          simpa using hcontains
        rcases List.mem_map.mp hmem with ⟨cl, hcl, hid⟩
        rcases mem_conceptRootsOf hcl with ⟨hclroots, hfacet⟩
        exact ⟨cl, hclroots, hid, hfacet⟩
      · rw [if_neg hic] at hkv
        exact absurd hkv (List.not_mem_nil kv)
    · intro r hr
      exact eventRoots_activity hr
  · intro c hc
    rcases classify_cls_master hc with ⟨rs, parsed, hro, -, -, -, -, hkeep, -⟩
    rcases conceptLeaf_unpack hkeep with ⟨item, hitem, rootId, hrootId, hleaf⟩
    rcases conceptRoot_entity hitem hrootId with ⟨cl, hcl, hid, hfacet⟩
    exact ⟨rs, rootId, hro, ⟨cl, hcl, hid, hfacet⟩, hleaf⟩
  · intro e he
    rcases classify_events_master he with ⟨rs, parsed, hro, -, -, -, -, -, hkeep, -⟩
    have hx := evtKeep_mem hkeep
    rcases eventLeafIds_unpack hx with ⟨ev, hev, rootId, hrootId, hleaf⟩
    have heq : (classifyPrep payload rs).1.event =
        eventPayloadOf payload
          (eventRootsOf rs
            ((activityRootsOf (getRootClasses payload)
              payload.scope.includesEvent).map (fun c => c.id))
            payload.scope.includesEvent)
          payload.scope.includesEvent := rfl
    rw [heq] at hev
    rcases eventPayload_root hev hrootId with ⟨r, hr, rfl⟩
    rcases eventRoots_activity hr with ⟨cl, hcl, hid, hfacet⟩
    exact ⟨rs, r.oClassId, hro, ⟨cl, hcl, hid, hfacet⟩, hleaf⟩

theorem claim_C10_witness :
    ∃ rs rootId,
      (Outcome.ok fxRootSelection : Outcome RootSelectionResponse)
        = Outcome.ok rs ∧
      (∃ cl ∈ getRootClasses fxRequest,
        cl.id = rootId ∧ cl.facet = some "Entity") ∧
      fxKept.oClassId ∈ rootLeafIds (classifyPrep fxRequest rs).1 rootId :=
  (claim_C10_facet_partition fxRequest true (Outcome.ok fxRootSelection)
    (Outcome.ok fxParsed)).2.1 fxKept (by decide)

end CalabiML
